import Mathlib

set_option autoImplicit false

/- Verification development for the Spotify-to-YouTube-Music migration tool.
The migration reconciliation engine lives in src/migrator.py; the destination
catalog adapter in src/youtube_client.py.  Pure functions are translated
directly; the external ytmusicapi surface is modelled as an oracle plus a
destination-catalog state, and every adapter/engine function threads an
explicit context recording API calls and state-store snapshots. -/

/- ===== Part 1: the persisted-state layer (MigrationState._load_state /
   MigrationState.save_state, src/migrator.py lines 15-36). ===== -/

/-- Python-like dynamic values as they occur in the migration state file
handling: JSON values plus Python sets (the in-memory default state stores
the completed-playlists field as a set). -/
inductive PyVal where
  | pynone : PyVal
  | pybool : Bool → PyVal
  | pynum : Nat → PyVal
  | pystr : String → PyVal
  | pylist : List PyVal → PyVal
  | pyset : List PyVal → PyVal
  | pydict : List (String × PyVal) → PyVal
  deriving Repr

/-- Association-list lookup, modelling Python dict access (dict keys are
unique, first match wins). -/
def alookup {α : Type} : List (String × α) → String → Option α
  | [], _ => none
  | kv :: l, k => if kv.1 = k then some kv.2 else alookup l k

/-- Association-list update-or-append, modelling Python dict item assignment
(which preserves insertion order and overwrites an existing key in place). -/
def aset {α : Type} : List (String × α) → String → α → List (String × α)
  | [], k, v => [(k, v)]
  | kv :: l, k, v => if kv.1 = k then (k, v) :: l else kv :: aset l k v

/-- Field access on a Python dict value. -/
def PyVal.get : PyVal → String → Option PyVal
  | .pydict fs, k => alookup fs k
  | _, _ => none

mutual

/-- Whether json.dump accepts the value: sets are not JSON serializable,
everything else the state file uses is. -/
def jsonOk : PyVal → Bool
  | .pynone => true
  | .pybool _ => true
  | .pynum _ => true
  | .pystr _ => true
  | .pylist xs => jsonOkList xs
  | .pyset _ => false
  | .pydict fs => jsonOkFields fs

def jsonOkList : List PyVal → Bool
  | [] => true
  | x :: xs => jsonOk x && jsonOkList xs

def jsonOkFields : List (String × PyVal) → Bool
  | [] => true
  | f :: fs => jsonOk f.2 && jsonOkFields fs

end

/-- The empty default state returned by MigrationState._load_state when the
file is absent or unparseable (src/migrator.py lines 23-28).  Note that
completed_playlists is a Python set here, while a loaded file stores it as a
JSON array. -/
def defaultState : PyVal :=
  .pydict [("playlists", .pydict []), ("tracks", .pydict []),
           ("completed_playlists", .pyset []), ("migration_started", .pynone)]

/-- The observable outcome of the open-and-parse attempt on an existing
state file (src/migrator.py lines 17-21): json.load returned a value, or the
attempt raised json.JSONDecodeError, or FileNotFoundError (the two exception
types the except clause catches), or some other exception — e.g.
UnicodeDecodeError while reading a non-UTF-8 corrupt file, or
IsADirectoryError / PermissionError from open — which the except clause does
not catch (the payload names the exception). -/
inductive FileRead where
  | parsed : PyVal → FileRead
  | decodeError : FileRead
  | fnfError : FileRead
  | otherError : String → FileRead
  deriving Repr

/-- Shallow embedding of MigrationState._load_state (src/migrator.py lines
15-28), complete with its exception behaviour.  The argument models the
state file: none = cache_file.exists() is false; some r = the file exists
and the open-and-parse attempt had outcome r.  A parsed value is returned
exactly as parsed, whatever its shape; the two caught exception types fall
through to the default state; any other exception propagates out of
_load_state (the error case). -/
def load_state_ex (file : Option FileRead) : Except String PyVal :=
  match file with
  | none => .ok defaultState
  | some (.parsed v) => .ok v
  | some .decodeError => .ok defaultState
  | some .fnfError => .ok defaultState
  | some (.otherError e) => .error e

/-- The restriction of _load_state to the runs in which no uncaught
exception occurs (the region load_state_ex describes with Except.ok): none =
file does not exist; some none = the file exists but open-and-parse raised
one of the two caught exception types; some (some v) = json.load parsed the
file to the value v, which is returned exactly as parsed, whatever its
shape. -/
def load_state (file : Option (Option PyVal)) : PyVal :=
  match file with
  | some (some v) => v
  | some none => defaultState
  | none => defaultState

/-- Modelled from the spec: list(x) for the collection values the
completed-playlists field takes (a set or a list); other types raise. -/
def pyListElems : PyVal → Option (List PyVal)
  | .pylist xs => some xs
  | .pyset xs => some xs
  | _ => none

/-- Shallow embedding of MigrationState.save_state (src/migrator.py lines
30-36): shallow-copy the state dict, replace completed_playlists by
list(completed_playlists), then json.dump the result.  Returns none when the
dump would raise (state not a dict, completed_playlists key missing or not a
collection, or an unserializable value left inside).  The some case is the
JSON value written to the file, which a later json.load reads back
unchanged. -/
def save_state (s : PyVal) : Option PyVal :=
  match s with
  | .pydict fs =>
    match alookup fs ("completed_playlists") with
    | some c =>
      match pyListElems c with
      | some xs =>
        let saved : PyVal := .pydict (aset fs ("completed_playlists") (.pylist xs))
        if jsonOk saved then some saved else none
      | none => none
    | none => none
  | _ => none

theorem alookup_aset {α : Type} (l : List (String × α)) (k kq : String) (v : α) :
    alookup (aset l k v) kq = if k = kq then some v else alookup l kq := by
  induction l with
  | nil =>
    by_cases h : k = kq <;> simp [aset, alookup, h]
  | cons kv l ih =>
    obtain ⟨a, b⟩ := kv
    by_cases h1 : a = k
    · subst h1
      by_cases h2 : a = kq
      · subst h2
        simp [aset, alookup]
      · simp [aset, alookup, h2]
    · by_cases h2 : a = kq
      · subst h2
        have hk : ¬ k = a := fun h => h1 h.symm
        simp [aset, alookup, h1, hk]
      · simp [aset, alookup, h1, h2, ih]

/-- C6 counterexample, refuting the claim in two independent ways.  First, a
corrupt file whose read raises an exception outside the caught pair — here a
non-UTF-8 file raising UnicodeDecodeError inside json.load's read — makes
_load_state itself raise, so load does not "never raise a fatal error".
Second, a file that parses as valid JSON but is malformed (here the empty
JSON object) is returned as-is, not replaced by the empty default state: the
result lacks the completed_playlists / playlists / tracks fields, so the
claim that every file condition yields an empty state with those three empty
fields is also false (later accesses such as is_playlist_completed raise
KeyError on it). -/
theorem c6_counterexample :
    load_state_ex (some (FileRead.otherError ("UnicodeDecodeError"))) =
      Except.error ("UnicodeDecodeError") ∧
    load_state_ex (some (FileRead.parsed (PyVal.pydict []))) =
      Except.ok (PyVal.pydict []) ∧
    (PyVal.pydict []).get ("completed_playlists") = none ∧
    defaultState.get ("completed_playlists") = some (PyVal.pyset []) ∧
    PyVal.pydict [] ≠ defaultState := by
  refine ⟨rfl, rfl, rfl, rfl, ?_⟩
  intro h
  have hh := congrArg (fun v => PyVal.get v ("completed_playlists")) h
  simp [defaultState, PyVal.get, alookup] at hh

/-- C6 amended: the graceful fallback to the empty default state covers
exactly an absent file and the two caught exception types
(json.JSONDecodeError, FileNotFoundError); a file that parses is returned
exactly as parsed, even when malformed; and every other exception raised by
the open-and-parse attempt propagates out of _load_state. -/
theorem c6_load_fallback_guarded :
    load_state_ex none = Except.ok defaultState ∧
    load_state_ex (some FileRead.decodeError) = Except.ok defaultState ∧
    load_state_ex (some FileRead.fnfError) = Except.ok defaultState ∧
    (∀ v, load_state_ex (some (FileRead.parsed v)) = Except.ok v) ∧
    (∀ e, load_state_ex (some (FileRead.otherError e)) = Except.error e) :=
  ⟨rfl, rfl, rfl, fun _ => rfl, fun _ => rfl⟩

/-- On every non-raising run, the complete model load_state_ex agrees with
the restricted model load_state used by the round-trip development. -/
theorem load_state_ex_agrees :
    load_state_ex none = Except.ok (load_state none) ∧
    load_state_ex (some FileRead.decodeError) = Except.ok (load_state (some none)) ∧
    load_state_ex (some FileRead.fnfError) = Except.ok (load_state (some none)) ∧
    ∀ v, load_state_ex (some (FileRead.parsed v)) = Except.ok (load_state (some (some v))) :=
  ⟨rfl, rfl, rfl, fun _ => rfl⟩

/-- C10: save_state followed by _load_state round-trips: for an in-memory
state whose completed_playlists field is a set and which json.dump accepts,
the loaded state has the same playlists mapping and the same track
resolutions, and its completed_playlists collection is stored as a list with
exactly the membership of the original set. -/
theorem c10_save_load_roundtrip (fs : List (String × PyVal)) (xs : List PyVal) (saved : PyVal)
    (hc : alookup fs ("completed_playlists") = some (PyVal.pyset xs))
    (hs : save_state (PyVal.pydict fs) = some saved) :
    (load_state (some (some saved))).get ("playlists") = (PyVal.pydict fs).get ("playlists") ∧
    (load_state (some (some saved))).get ("tracks") = (PyVal.pydict fs).get ("tracks") ∧
    ∃ ys, (load_state (some (some saved))).get ("completed_playlists") = some (PyVal.pylist ys) ∧
      ∀ v, v ∈ ys ↔ v ∈ xs := by
  simp only [save_state, hc, pyListElems] at hs
  split at hs
  case isTrue hok =>
    have hsaved : saved = PyVal.pydict (aset fs ("completed_playlists") (.pylist xs)) :=
      (Option.some.injEq _ _ ▸ hs).symm
    subst hsaved
    have h1 : ("completed_playlists" : String) ≠ ("playlists") := by decide
    have h2 : ("completed_playlists" : String) ≠ ("tracks") := by decide
    refine ⟨?_, ?_, xs, ?_, fun v => Iff.rfl⟩
    · simp [load_state, PyVal.get, alookup_aset, h1]
    · simp [load_state, PyVal.get, alookup_aset, h2]
    · simp [load_state, PyVal.get, alookup_aset]
  case isFalse => simp at hs

/-- C10 witness: the round-trip theorem applied to a concrete one-playlist,
one-resolution state. -/
theorem c10_save_load_roundtrip_witness :
    (load_state (some (some (PyVal.pydict
        [("playlists", .pydict [("p1", .pydict [("youtube_id", .pystr ("y1"))])]),
         ("tracks", .pydict [("p1:t1", .pydict [("status", .pystr ("found"))])]),
         ("completed_playlists", .pylist [.pystr ("p1")]),
         ("migration_started", .pynone)])))).get ("playlists") =
      (PyVal.pydict
        [("playlists", .pydict [("p1", .pydict [("youtube_id", .pystr ("y1"))])]),
         ("tracks", .pydict [("p1:t1", .pydict [("status", .pystr ("found"))])]),
         ("completed_playlists", .pyset [.pystr ("p1")]),
         ("migration_started", .pynone)]).get ("playlists") ∧
    (load_state (some (some (PyVal.pydict
        [("playlists", .pydict [("p1", .pydict [("youtube_id", .pystr ("y1"))])]),
         ("tracks", .pydict [("p1:t1", .pydict [("status", .pystr ("found"))])]),
         ("completed_playlists", .pylist [.pystr ("p1")]),
         ("migration_started", .pynone)])))).get ("tracks") =
      (PyVal.pydict
        [("playlists", .pydict [("p1", .pydict [("youtube_id", .pystr ("y1"))])]),
         ("tracks", .pydict [("p1:t1", .pydict [("status", .pystr ("found"))])]),
         ("completed_playlists", .pyset [.pystr ("p1")]),
         ("migration_started", .pynone)]).get ("tracks") ∧
    ∃ ys, (load_state (some (some (PyVal.pydict
        [("playlists", .pydict [("p1", .pydict [("youtube_id", .pystr ("y1"))])]),
         ("tracks", .pydict [("p1:t1", .pydict [("status", .pystr ("found"))])]),
         ("completed_playlists", .pylist [.pystr ("p1")]),
         ("migration_started", .pynone)])))).get ("completed_playlists") =
        some (PyVal.pylist ys) ∧
      ∀ v, v ∈ ys ↔ v ∈ [PyVal.pystr ("p1")] :=
  c10_save_load_roundtrip
    [("playlists", .pydict [("p1", .pydict [("youtube_id", .pystr ("y1"))])]),
     ("tracks", .pydict [("p1:t1", .pydict [("status", .pystr ("found"))])]),
     ("completed_playlists", .pyset [.pystr ("p1")]),
     ("migration_started", .pynone)]
    [PyVal.pystr ("p1")] _ rfl rfl

/- ===== Part 2: the destination catalog adapter (src/youtube_client.py)
   and the reconciliation engine (src/migrator.py). ===== -/

/-- Error kinds distinguished by YouTubeClient._is_auth_error: an exception
whose text carries an authentication marker versus any other exception.
Both degrade to a None/False/[] result at the client boundary; only the
printed warning differs. -/
inductive ErrKind where
  | auth : ErrKind
  | other : ErrKind
  deriving DecidableEq, Repr

/-- A search request as issued to ytmusicapi: query string, result-type
filter, and candidate limit. -/
structure SearchRequest where
  query : String
  filt : String
  limit : Nat
  deriving DecidableEq, Repr

/-- An artist object inside a ytmusicapi search/playlist result. -/
structure SArtist where
  name : Option String := none
  deriving DecidableEq, Repr

/-- An album object inside a ytmusicapi search result. -/
structure SAlbum where
  name : Option String := none
  deriving DecidableEq, Repr

/-- A raw ytmusicapi result item (search candidate or playlist track):
every field the client reads, each possibly absent. -/
structure Candidate where
  videoId : Option String := none
  title : Option String := none
  artists : List SArtist := []
  album : Option SAlbum := none
  duration : Option String := none
  thumbnails : List String := []
  deriving DecidableEq, Repr

/-- The dict search_track returns on a hit (src/youtube_client.py lines
147-154). -/
structure TrackMatch where
  videoId : String
  title : String
  artists : List String
  album : String
  duration : String
  thumbnails : List String
  deriving DecidableEq, Repr

/-- The dict get_playlist_tracks yields per track (src/youtube_client.py
lines 251-259). -/
structure PTrack where
  videoId : String
  title : String
  artists : List String
  deriving DecidableEq, Repr

/-- A library playlist as cached by YouTubeClient.get_playlists
(src/youtube_client.py lines 226-232). -/
structure PlaylistInfo where
  id : String
  title : String
  count : Nat
  deriving DecidableEq, Repr

/-- Modelled from the spec: the raw ytmusicapi surface the client calls.
Each operation is an oracle indexed by a process-wide call counter, so the
same operation may succeed at one point of a run and fail at another
(auth expiry, quota, deleted playlist).  A some/error result models the call
raising; successful reads and writes act on the destination-catalog state
threaded through the context below. -/
structure YTApi where
  searchR : Nat → SearchRequest → Except ErrKind (List Candidate)
  addR : Nat → String → List String → Option ErrKind
  getR : Nat → String → Option ErrKind
  libR : Nat → Except ErrKind (List PlaylistInfo)
  createR : Nat → String → Except ErrKind String
  accR : Nat → Option ErrKind

/-- One persisted track resolution (state['tracks'] values,
src/migrator.py lines 59-65). -/
structure TrackEntry where
  status : String
  youtube_video_id : Option String
  timestamp : Nat
  deriving DecidableEq, Repr

/-- One persisted playlist mapping (state['playlists'] values,
src/migrator.py lines 49-53; both fields are always written together). -/
structure PlaylistEntry where
  youtube_id : String
  name : String
  deriving DecidableEq, Repr

/-- The completed_playlists collection: a Python set in a fresh state, a list
right after loading from disk.  The source handles both shapes explicitly
(src/migrator.py lines 41-44, 127-131, 145-149). -/
inductive CompletedColl where
  | cset : List String → CompletedColl
  | clist : List String → CompletedColl
  deriving DecidableEq, Repr

/-- Python set.add on a set represented as its insertion-ordered elements. -/
def insert_set (xs : List String) (v : String) : List String :=
  if v ∈ xs then xs else xs ++ [v]

/-- Python set(list): deduplicate; only membership matters afterwards. -/
def set_of_list (xs : List String) : List String :=
  xs.foldl insert_set []

/-- Python list.remove: drop the first occurrence. -/
def remove_first : List String → String → List String
  | [], _ => []
  | x :: xs, v => if x = v then xs else x :: remove_first xs v

/-- Python membership test (the `in` operator) on either shape. -/
def CompletedColl.has : CompletedColl → String → Bool
  | .cset xs, p => decide (p ∈ xs)
  | .clist xs, p => decide (p ∈ xs)

/-- mark_playlist_completed (src/migrator.py lines 41-44): convert a list to
a set first, then set.add. -/
def CompletedColl.addC : CompletedColl → String → CompletedColl
  | .cset xs, p => .cset (insert_set xs p)
  | .clist xs, p => .cset (insert_set (set_of_list xs) p)

/-- The removal idiom used at src/migrator.py lines 127-131 and 145-149:
set.discard on a set, guarded list.remove on a list. -/
def CompletedColl.removeC : CompletedColl → String → CompletedColl
  | .cset xs, p => .cset (xs.filter (fun x => x ≠ p))
  | .clist xs, p => if p ∈ xs then .clist (remove_first xs p) else .clist xs

/-- The in-memory migration state as maintained by the engine through the
MigrationState accessors (well-shaped view of the state dict). -/
structure MState where
  playlists : List (String × PlaylistEntry)
  tracks : List (String × TrackEntry)
  completed : CompletedColl
  deriving DecidableEq, Repr

def MState.is_playlist_completed (s : MState) (pid : String) : Bool :=
  s.completed.has pid

/-- The key f"{playlist_id}:{spotify_track_id}" of state['tracks']
(src/migrator.py lines 56, 60). -/
def track_key (pid tid : String) : String :=
  pid ++ ":" ++ tid

def MState.get_youtube_playlist_id (s : MState) (pid : String) : Option String :=
  (alookup s.playlists pid).map PlaylistEntry.youtube_id

def MState.set_youtube_playlist_id (s : MState) (pid yid nm : String) : MState :=
  { s with playlists := aset s.playlists pid ⟨yid, nm⟩ }

def MState.get_track_status (s : MState) (tid pid : String) : Option TrackEntry :=
  alookup s.tracks (track_key pid tid)

def MState.mark_track_migrated (s : MState) (tid pid status : String)
    (vid : Option String) (now : Nat) : MState :=
  { s with tracks := aset s.tracks (track_key pid tid) ⟨status, vid, now⟩ }

/-- Observable events of a run: every ytmusicapi call the client makes, and
every state-store save with the snapshot it persists. -/
inductive Ev where
  | searchCall : SearchRequest → Ev
  | addCall : String → List String → Ev
  | getPlaylistCall : String → Ev
  | libCall : Ev
  | createCall : String → Ev
  | accCall : Ev
  | saveEv : MState → Ev
  deriving DecidableEq, Repr

/-- One failed-track descriptor (src/migrator.py lines 314-319). -/
structure FailedTrack where
  playlist : String
  track : String
  artist : String
  album : String
  deriving DecidableEq, Repr

/-- The run summary counters (src/migrator.py lines 78-86). -/
structure Summary where
  playlists_processed : Nat
  playlists_created : Nat
  tracks_found : Nat
  tracks_migrated : Nat
  tracks_failed : Nat
  failed_tracks : List FailedTrack
  deriving DecidableEq, Repr

/-- The whole execution context threaded through client and engine: the
oracle, the destination-catalog contents (Modelled from the spec: playlist
id to current tracks), the client call counter and library-playlists cache,
the migration state and summary, the event trace, and two ghost observers:
staged (every id appended to a chunk_video_ids buffer, in order) and
skippedNotFound (how many tracks were skipped via a cached not_found
resolution); now is the timestamp clock. -/
structure Ctx where
  api : YTApi
  dest : List (String × List Candidate)
  step : Nat
  cachedPlaylists : Option (List PlaylistInfo)
  state : MState
  summary : Summary
  trace : List Ev
  staged : List String
  skippedNotFound : Nat
  now : Nat

/-- Record an API call: bump the call counter and log the event. -/
def Ctx.callApi (c : Ctx) (e : Ev) : Ctx :=
  { c with step := c.step + 1, trace := c.trace ++ [e] }

/-- MigrationState.save_state at the engine level: log the snapshot. -/
def Ctx.saveSt (c : Ctx) : Ctx :=
  { c with trace := c.trace ++ [Ev.saveEv c.state] }

/-- Python truthiness filter for an optional string: None and the empty
string are falsy. -/
def truthyS : Option String → Option String
  | some v => if v = "" then none else some v
  | none => none

/-- Modelled from the spec: current contents of a destination playlist. -/
def dest_get (d : List (String × List Candidate)) (pid : String) : List Candidate :=
  (alookup d pid).getD []

/-- Modelled from the spec: a successful addTracks call appends the ids to
the destination playlist. -/
def dest_add (d : List (String × List Candidate)) (pid : String) (vs : List String) :
    List (String × List Candidate) :=
  aset d pid (dest_get d pid ++ vs.map (fun v => { videoId := some v }))

/-- get_playlist_tracks result mapping (src/youtube_client.py lines 251-259):
keep items with a truthy videoId, project videoId/title/artists. -/
def extract_tracks (ts : List Candidate) : List PTrack :=
  (ts.filter (fun t => (truthyS t.videoId).isSome)).map
    (fun t => ⟨t.videoId.getD (""), t.title.getD (""),
               t.artists.map (fun a => a.name.getD (""))⟩)

/-- YouTubeClient.get_playlist_tracks (src/youtube_client.py lines 246-261):
any exception yields the empty list; this function never raises. -/
def yt_get_playlist_tracks (c : Ctx) (pid : String) : List PTrack × Ctx :=
  let r := c.api.getR c.step pid
  let c := c.callApi (.getPlaylistCall pid)
  match r with
  | some _ => ([], c)
  | none => (extract_tracks (dest_get c.dest pid), c)

/-- The query built at src/youtube_client.py lines 135-137: title and joined
artists, plus the album only when it is truthy. -/
def build_query (track_name artist_name : String) (album_name : Option String) : String :=
  let q := track_name ++ " " ++ artist_name
  match album_name with
  | some a => if a = "" then q else q ++ " " ++ a
  | none => q

/-- The result dict built for the first acceptable candidate
(src/youtube_client.py lines 147-154). -/
def cand_to_match (cnd : Candidate) : TrackMatch :=
  { videoId := cnd.videoId.getD (""),
    title := cnd.title.getD (""),
    artists := cnd.artists.map (fun a => a.name.getD ("")),
    album := match cnd.album with
             | some al => al.name.getD ("")
             | none => "",
    duration := cnd.duration.getD (""),
    thumbnails := cnd.thumbnails }

/-- The selection loop of search_track: first candidate with a truthy
videoId wins; none otherwise (src/youtube_client.py lines 145-156). -/
def select_first : List Candidate → Option TrackMatch
  | [] => none
  | cnd :: rest =>
    match truthyS cnd.videoId with
    | some _ => some (cand_to_match cnd)
    | none => select_first rest

/-- YouTubeClient.search_track (src/youtube_client.py lines 134-162): issue
the built query with the songs filter and limit 5; any exception (auth or
otherwise) degrades to None. -/
def yt_search_track (c : Ctx) (track_name artist_name : String)
    (album_name : Option String) : Option TrackMatch × Ctx :=
  let req : SearchRequest := ⟨build_query track_name artist_name album_name, "songs", 5⟩
  let r := c.api.searchR c.step req
  let c := c.callApi (.searchCall req)
  match r with
  | .error _ => (none, c)
  | .ok results => (select_first results, c)

/-- YouTubeClient.add_songs_to_playlist (src/youtube_client.py lines
207-220): an empty batch succeeds without an API call; any exception
degrades to False. -/
def yt_add_songs_to_playlist (c : Ctx) (pid : String) (vids : List String) : Bool × Ctx :=
  if vids.isEmpty then (true, c)
  else
    let r := c.api.addR c.step pid vids
    let c := c.callApi (.addCall pid vids)
    match r with
    | none => (true, { c with dest := dest_add c.dest pid vids })
    | some _ => (false, c)

/-- YouTubeClient.get_playlists (src/youtube_client.py lines 222-237): fetch
the library listing once per process and cache it; a failure caches []. -/
def yt_get_playlists (c : Ctx) : List PlaylistInfo × Ctx :=
  match c.cachedPlaylists with
  | some ps => (ps, c)
  | none =>
    let r := c.api.libR c.step
    let c := c.callApi (.libCall)
    match r with
    | .ok ps => (ps, { c with cachedPlaylists := some ps })
    | .error _ => ([], { c with cachedPlaylists := some [] })

/-- YouTubeClient.playlist_exists (src/youtube_client.py lines 239-244):
exact-title match over the cached listing. -/
def yt_playlist_exists (c : Ctx) (title : String) : Option String × Ctx :=
  let (ps, c) := yt_get_playlists c
  ((ps.find? (fun p => p.title == title)).map PlaylistInfo.id, c)

/-- YouTubeClient.create_playlist (src/youtube_client.py lines 164-205): an
ignored account-info probe, the creation call, then a verification read of
the returned id; verification failure returns None even though an id was
returned.  On success the library cache is invalidated and the playlist
exists (empty) in the destination catalog. -/
def yt_create_playlist (c : Ctx) (title _descr : String) : Option String × Ctx :=
  let c := c.callApi (.accCall)
  let r := c.api.createR c.step title
  let c := c.callApi (.createCall title)
  match r with
  | .error _ => (none, c)
  | .ok newId =>
    let rv := c.api.getR c.step newId
    let c := c.callApi (.getPlaylistCall newId)
    match rv with
    | some _ => (none, c)
    | none =>
      (some newId,
       { c with cachedPlaylists := none,
                dest := if (alookup c.dest newId).isSome then c.dest
                        else aset c.dest newId [] })

/-- A source-catalog track as produced by SpotifyClient.get_playlist_tracks
or get_saved_tracks (src/spotify_client.py). -/
structure STrack where
  id : String
  name : String
  artists : List String
  album : String
  deriving DecidableEq, Repr

/-- A source-catalog playlist as produced by
SpotifyClient.get_user_playlists; track_count none models the string
placeholder used for the synthetic liked-songs entry. -/
structure SPlaylist where
  id : String
  name : String
  owner : String
  track_count : Option Nat
  public : Bool
  deriving DecidableEq, Repr

/-- Ghost log of an id appended to the chunk_video_ids buffer. -/
def Ctx.stage (c : Ctx) (v : String) : Ctx :=
  { c with staged := c.staged ++ [v] }

/-- Write a track resolution through the state store, stamping the clock. -/
def Ctx.mark (c : Ctx) (tid pid status : String) (vid : Option String) : Ctx :=
  { c with state := c.state.mark_track_migrated tid pid status vid c.now,
           now := c.now + 1 }

/-- Per-chunk loop state: the context, the existing_youtube_tracks dedup set
(which persists across chunks), and the chunk_video_ids buffer. -/
structure ChunkAcc where
  ctx : Ctx
  existing : List String
  chunkIds : List String

/-- The fresh-search arm of the per-track decision table (src/migrator.py
lines 286-322): search, then stage/count/dedup on a hit or record not_found
and a failure entry on a miss. -/
def search_phase (pid pname : String) (a : ChunkAcc) (t : STrack) : ChunkAcc :=
  let (m, c) := yt_search_track a.ctx t.name (String.intercalate ", " t.artists) (some t.album)
  match m with
  | some yt =>
    let v := yt.videoId
    if v ∈ a.existing then
      let c := c.mark t.id pid ("found") (some v)
      { ctx := c, existing := a.existing, chunkIds := a.chunkIds }
    else
      let c := { c with summary :=
        { c.summary with tracks_migrated := c.summary.tracks_migrated + 1 } }
      let c := c.stage v
      let c := c.mark t.id pid ("found") (some v)
      { ctx := c, existing := insert_set a.existing v, chunkIds := a.chunkIds ++ [v] }
  | none =>
    let c := c.mark t.id pid ("not_found") none
    let c := { c with summary :=
      { c.summary with tracks_failed := c.summary.tracks_failed + 1,
                       failed_tracks := c.summary.failed_tracks ++
                         [⟨pname, t.name, String.intercalate ", " t.artists, t.album⟩] } }
    { ctx := c, existing := a.existing, chunkIds := a.chunkIds }

/-- One track of the per-chunk loop (src/migrator.py lines 263-322): the
cached-found arm (reuse the cached id, skipping it when already present,
without touching the dedup set when staging), the cached-not_found skip arm,
and otherwise the fresh search.  A cached found entry with a falsy id falls
through to the fresh search. -/
def process_track (pid pname : String) (force : Bool) (a : ChunkAcc) (t : STrack) : ChunkAcc :=
  match a.ctx.state.get_track_status t.id pid with
  | some e =>
    if force = false ∧ e.status = ("found") then
      match truthyS e.youtube_video_id with
      | some v =>
        if v ∈ a.existing then a
        else { ctx := a.ctx.stage v, existing := a.existing, chunkIds := a.chunkIds ++ [v] }
      | none => search_phase pid pname a t
    else if force = false ∧ e.status = ("not_found") then
      { a with ctx := { a.ctx with skippedNotFound := a.ctx.skippedNotFound + 1 } }
    else search_phase pid pname a t
  | none => search_phase pid pname a t

/-- Structural helper for fixed-size slicing: the fuel dominates the list
length, so the recursion is structural and reduces in the kernel. -/
def chunks_of_fuel {α : Type} (n : Nat) : Nat → List α → List (List α)
  | _, [] => []
  | 0, _ :: _ => []
  | fuel + 1, x :: xs => (x :: xs).take n :: chunks_of_fuel n fuel ((x :: xs).drop n)

/-- Fixed-size slicing, modelling range(0, len(xs), n) indexing. -/
def chunks_of {α : Type} (n : Nat) (xs : List α) : List (List α) :=
  if n = 0 then [] else chunks_of_fuel n xs.length xs

theorem chunks_of_fuel_congr {α : Type} (n : Nat) (hn : n ≠ 0) :
    ∀ (f1 f2 : Nat) (xs : List α), xs.length ≤ f1 → xs.length ≤ f2 →
      chunks_of_fuel n f1 xs = chunks_of_fuel n f2 xs := by
  intro f1
  induction f1 with
  | zero =>
    intro f2 xs h1 h2
    have hx : xs = [] := List.eq_nil_of_length_eq_zero (Nat.le_zero.mp h1)
    subst hx
    cases f2 <;> rfl
  | succ g1 ih =>
    intro f2 xs h1 h2
    cases xs with
    | nil => cases f2 <;> rfl
    | cons x l =>
      cases f2 with
      | zero =>
        exact absurd h2 (by simp)
      | succ g2 =>
        simp only [chunks_of_fuel]
        congr 1
        apply ih
        · have := List.length_cons x l ▸ h1
          simp only [List.length_drop, List.length_cons]
          omega
        · have := List.length_cons x l ▸ h2
          simp only [List.length_drop, List.length_cons]
          omega

theorem chunks_of_eq {α : Type} (n : Nat) (xs : List α) :
    chunks_of n xs =
      if xs.isEmpty ∨ n = 0 then [] else xs.take n :: chunks_of n (xs.drop n) := by
  by_cases hn : n = 0
  · simp [chunks_of, hn]
  · cases xs with
    | nil => simp [chunks_of, hn, chunks_of_fuel]
    | cons x l =>
      rw [if_neg (by simp [hn])]
      simp only [chunks_of, if_neg hn]
      simp only [List.length_cons, chunks_of_fuel]
      congr 1
      apply chunks_of_fuel_congr n hn
      · have hpos : 0 < n := Nat.pos_of_ne_zero hn
        simp only [List.length_drop, List.length_cons]
        omega
      · exact Nat.le_refl _

/-- One batch of _add_tracks_in_batches (src/migrator.py lines 352-377):
try, retry once on failure, then on a double failure probe the playlist.
The source would break out of the loop if that probe raised, but
YouTubeClient.get_playlist_tracks catches every exception and returns [],
so the probe never raises and the loop always continues to the next
batch. -/
def add_batch (ytpid pname : String) (acc : Nat × Ctx) (batch : List String) : Nat × Ctx :=
  let (total, c) := acc
  let (ok1, c) := yt_add_songs_to_playlist c ytpid batch
  let (ok2, c) := if ok1 then (true, c) else yt_add_songs_to_playlist c ytpid batch
  if ok2 then (total + batch.length, c)
  else
    let (_, c) := yt_get_playlist_tracks c ytpid
    (total, c)

/-- _add_tracks_in_batches (src/migrator.py lines 345-379): batches of 50,
returning the number of ids in successfully added batches. -/
def add_tracks_in_batches (c : Ctx) (ytpid : String) (vids : List String)
    (pname : String) : Nat × Ctx :=
  (chunks_of 50 vids).foldl (add_batch ytpid pname) (0, c)

/-- Per-pass loop state: context, the dedup set, and the running total of
added ids. -/
structure PassAcc where
  ctx : Ctx
  existing : List String
  total_added : Nat

/-- One 200-track chunk (src/migrator.py lines 254-331): process each track,
flush the staged ids when any, save the state. -/
def process_chunk (pid ytpid pname : String) (force : Bool) (s : PassAcc)
    (chunk : List STrack) : PassAcc :=
  let a := chunk.foldl (process_track pid pname force) ⟨s.ctx, s.existing, []⟩
  let (added, c) :=
    if a.chunkIds.isEmpty then (0, a.ctx)
    else add_tracks_in_batches a.ctx ytpid a.chunkIds pname
  let c := c.saveSt
  ⟨c, a.existing, s.total_added + added⟩

/-- _process_tracks_in_chunks (src/migrator.py lines 240-343): chunks of
200, then unconditionally mark the playlist completed, save, bump the
processed counter and return True. -/
def process_tracks_in_chunks (c : Ctx) (tracks : List STrack) (pid ytpid pname : String)
    (existing : List String) (force : Bool) : Bool × Ctx :=
  let s := (chunks_of 200 tracks).foldl (process_chunk pid ytpid pname force)
    ⟨c, existing, 0⟩
  let c := { s.ctx with state :=
    { s.ctx.state with completed := s.ctx.state.completed.addC pid } }
  let c := c.saveSt
  let c := { c with summary :=
    { c.summary with playlists_processed := c.summary.playlists_processed + 1 } }
  (true, c)

/-- Character-list version of str.startswith. -/
def chars_le : List Char → List Char → Bool
  | [], _ => true
  | _ :: _, [] => false
  | a :: as, b :: bs => a == b && chars_le as bs

/-- Python str.startswith. -/
def py_startswith (s p : String) : Bool :=
  chars_le p.data s.data

/-- The force-reprocess clearing block (src/migrator.py lines 138-158):
delete the playlist mapping, discard the completion flag, and delete every
track key starting with f"{playlist_id}:". -/
def force_clear (c : Ctx) (pid : String) : Ctx :=
  let s := c.state
  let s := { s with playlists := s.playlists.filter (fun kv => kv.1 ≠ pid) }
  let s := { s with completed := s.completed.removeC pid }
  let s := { s with tracks := s.tracks.filter (fun kv => !(py_startswith kv.1 (pid ++ ":"))) }
  { c with state := s }

/-- The tail of migrate_playlist after a destination playlist id is in hand
(src/migrator.py lines 210-238): record the mapping, save, read the
destination playlist once to build the dedup baseline (a failed read leaves
it empty), count the source tracks, and hand off to the chunk loop. -/
def migrate_tail (c : Ctx) (pid ytid pname : String) (tracks : List STrack)
    (force : Bool) : Bool × Ctx :=
  let c := { c with state := c.state.set_youtube_playlist_id pid ytid pname }
  let c := c.saveSt
  let (yts, c) := yt_get_playlist_tracks c ytid
  let existing := set_of_list ((yts.filter (fun t => t.videoId ≠ "")).map PTrack.videoId)
  let c := { c with summary :=
    { c.summary with tracks_found := c.summary.tracks_found + tracks.length } }
  process_tracks_in_chunks c tracks pid ytid pname existing force

/-- The arm of migrate_playlist from src/migrator.py line 170 on, once the
existing-playlist lookup result is in hand: a truthy existing id proceeds
(with an extra verification read in force mode, which never aborts because
the client absorbs read failures); otherwise create-and-verify, aborting the
playlist on a falsy result. -/
def migrate_after_lookup (c : Ctx) (eid : Option String) (pid pname : String)
    (tracks : List STrack) (is_liked_songs force_reprocess : Bool) : Bool × Ctx :=
  match truthyS eid with
  | some ytid =>
    let c := if force_reprocess then (yt_get_playlist_tracks c ytid).2 else c
    migrate_tail c pid ytid pname tracks force_reprocess
  | none =>
    let descr := ("Migrated from Spotify ") ++
      (if is_liked_songs then ("Liked Songs") else ("playlist"))
    let (created, c) := yt_create_playlist c pname descr
    match truthyS created with
    | none => (false, c)
    | some ytid =>
      let c := (yt_get_playlist_tracks c ytid).2
      let c := { c with summary := { c.summary with
        playlists_created := c.summary.playlists_created + 1 } }
      migrate_tail c pid ytid pname tracks force_reprocess

/-- migrate_playlist (src/migrator.py lines 118-238).  The source track list
is a parameter (the engine fetches it from the source-catalog reader, an
external collaborator).  In force mode: discard the completion flag, clear
all cached data, save, and do a fresh existence lookup; otherwise consult
the cached mapping first; then continue in migrate_after_lookup. -/
def migrate_playlist (c : Ctx) (sp : SPlaylist) (tracks : List STrack)
    (is_liked_songs force_reprocess : Bool) : Bool × Ctx :=
  let pname := if is_liked_songs then ("Liked Songs - Spot") else ("Spot ") ++ sp.name
  let pid := sp.id
  let c := if force_reprocess && c.state.is_playlist_completed pid then
             { c with state := { c.state with completed := c.state.completed.removeC pid } }
           else c
  let (eid, c) :=
    if force_reprocess then
      let c := force_clear c pid
      let c := c.saveSt
      yt_playlist_exists c pname
    else
      match truthyS (c.state.get_youtube_playlist_id pid) with
      | some y => (some y, c)
      | none => yt_playlist_exists c pname
  migrate_after_lookup c eid pid pname tracks is_liked_songs force_reprocess

/-- The Spotify user identity consulted by the ownership filter
(src/spotify_client.py get_user_info). -/
structure SpotifyUser where
  id : String
  display_name : String
  deriving DecidableEq, Repr

/-- The synthetic liked-songs entry appended unconditionally
(src/migrator.py lines 398-404). -/
def liked_songs_entry (u : SpotifyUser) : SPlaylist :=
  { id := "liked_songs", name := "Liked Songs", owner := u.display_name,
    track_count := none, public := false }

/-- The ownership filter of run_migration (src/migrator.py lines 392-404):
keep playlists whose owner equals the display name or the account id, then
append the synthetic liked-songs entry. -/
def owned_playlists_of (all_playlists : List SPlaylist) (u : SpotifyUser) : List SPlaylist :=
  (all_playlists.filter (fun p => p.owner == u.display_name || p.owner == u.id)) ++
    [liked_songs_entry u]

/-- skipped_count (src/migrator.py line 406): computed in Python integers. -/
def skipped_count_of (all_playlists : List SPlaylist) (u : SpotifyUser) : Int :=
  (all_playlists.length : Int) - ((owned_playlists_of all_playlists u).length : Int) + 1

/-- The skip report (src/migrator.py lines 407-408): printed only when the
count is positive. -/
def skipped_report (all_playlists : List SPlaylist) (u : SpotifyUser) : Option Int :=
  if 0 < skipped_count_of all_playlists u then some (skipped_count_of all_playlists u)
  else none

/- ===== Part 3: basic lemmas about the embedded primitives. ===== -/

theorem truthyS_eq_some {o : Option String} {v : String} :
    truthyS o = some v ↔ o = some v ∧ v ≠ "" := by
  cases o with
  | none => simp [truthyS]
  | some w =>
    by_cases hw : w = "" <;> simp [truthyS, hw] <;> aesop

theorem mem_insert_set_self (xs : List String) (v : String) : v ∈ insert_set xs v := by
  by_cases h : v ∈ xs <;> simp [insert_set, h]

theorem mem_insert_set_of_mem {xs : List String} {w : String} (v : String) (h : w ∈ xs) :
    w ∈ insert_set xs v := by
  by_cases hv : v ∈ xs <;> simp [insert_set, hv, h]

theorem mem_of_mem_insert_set {xs : List String} {v w : String}
    (h : w ∈ insert_set xs v) : w ∈ xs ∨ w = v := by
  by_cases hv : v ∈ xs <;> simp [insert_set, hv] at h
  · exact Or.inl h
  · exact h

theorem mem_foldl_insert_set (xs : List String) :
    ∀ (acc : List String) (v : String), v ∈ xs.foldl insert_set acc ↔ v ∈ acc ∨ v ∈ xs := by
  induction xs with
  | nil => intro acc v; simp
  | cons x xs ih =>
    intro acc v
    rw [List.foldl_cons, ih]
    constructor
    · rintro (h | h)
      · rcases mem_of_mem_insert_set h with h | h
        · exact Or.inl h
        · exact Or.inr (by simp [h])
      · exact Or.inr (by simp [h])
    · rintro (h | h)
      · exact Or.inl (mem_insert_set_of_mem x h)
      · rcases List.mem_cons.mp h with h | h
        · exact Or.inl (h ▸ mem_insert_set_self acc x)
        · exact Or.inr h

theorem mem_set_of_list {xs : List String} {v : String} :
    v ∈ set_of_list xs ↔ v ∈ xs := by
  rw [set_of_list, mem_foldl_insert_set]
  simp

theorem has_addC_self (coll : CompletedColl) (p : String) :
    (coll.addC p).has p = true := by
  cases coll with
  | cset xs => simp [CompletedColl.addC, CompletedColl.has, mem_insert_set_self]
  | clist xs => simp [CompletedColl.addC, CompletedColl.has, mem_insert_set_self]

theorem chars_le_append (p t : List Char) : chars_le p (p ++ t) = true := by
  induction p with
  | nil => rfl
  | cons a as ih => simp [chars_le, ih]

theorem py_startswith_append (p t : String) : py_startswith (p ++ t) p = true := by
  simp [py_startswith, String.data_append, chars_le_append]

theorem py_startswith_track_key (pid tid : String) :
    py_startswith (track_key pid tid) (pid ++ ":") = true := by
  have h : track_key pid tid = (pid ++ ":") ++ tid := rfl
  rw [h]
  exact py_startswith_append _ _

theorem alookup_filter_key {α : Type} (l : List (String × α)) (p : String → Bool) (k : String)
    (hk : p k = false) : alookup (l.filter (fun kv => p kv.1)) k = none := by
  induction l with
  | nil => rfl
  | cons kv l ih =>
    by_cases h : p kv.1 = true
    · have hne : kv.1 ≠ k := fun he => by rw [he, hk] at h; exact Bool.false_ne_true h
      simp [List.filter_cons, h, alookup, hne, ih]
    · simp only [Bool.not_eq_true] at h
      simp [List.filter_cons, h, ih]

theorem chunks_of_join {α : Type} (n : Nat) (hn : n ≠ 0) :
    ∀ xs : List α, (chunks_of n xs).flatten = xs := by
  suffices h : ∀ (len : Nat) (xs : List α), xs.length = len → (chunks_of n xs).flatten = xs by
    exact fun xs => h xs.length xs rfl
  intro len
  induction len using Nat.strong_induction_on with
  | _ len ih =>
    intro xs hxs
    by_cases he : xs.isEmpty
    · rw [chunks_of_eq, if_pos (Or.inl he)]
      simp [List.isEmpty_iff.mp he]
    · rw [chunks_of_eq, if_neg (by simp [he, hn])]
      have hlt : (xs.drop n).length < len := by
        subst hxs
        have h1 : xs ≠ [] := by simpa [List.isEmpty_iff] using he
        have : 0 < xs.length := List.length_pos.mpr h1
        simp only [List.length_drop]
        omega
      rw [List.flatten_cons, ih _ hlt _ rfl, List.take_append_drop]

theorem chunks_of_ne_nil {α : Type} (n : Nat) (xs : List α) :
    ∀ b ∈ chunks_of n xs, b ≠ [] := by
  suffices h : ∀ (len : Nat) (xs : List α), xs.length = len → ∀ b ∈ chunks_of n xs, b ≠ [] by
    exact h xs.length xs rfl
  intro len
  induction len using Nat.strong_induction_on with
  | _ len ih =>
    intro xs hxs b hb
    by_cases he : xs.isEmpty ∨ n = 0
    · rw [chunks_of_eq, if_pos he] at hb
      simp at hb
    · rw [chunks_of_eq, if_neg he] at hb
      simp only [not_or, List.isEmpty_iff] at he
      rcases List.mem_cons.mp hb with h | h
      · subst h
        intro hcon
        rcases List.take_eq_nil_iff.mp hcon with h | h
        · exact he.2 h
        · exact he.1 h
      · have hlt : (xs.drop n).length < len := by
          subst hxs
          have h1 : 0 < xs.length := List.length_pos.mpr he.1
          have h2 : 0 < n := Nat.pos_of_ne_zero he.2
          simp only [List.length_drop]
          omega
        exact ih _ hlt _ rfl b h

/- ===== Part 4: what each client operation does and does not change. ===== -/

theorem yt_search_track_fields (c : Ctx) (tn an : String) (al : Option String) :
    (yt_search_track c tn an al).2.api = c.api ∧
    (yt_search_track c tn an al).2.dest = c.dest ∧
    (yt_search_track c tn an al).2.state = c.state ∧
    (yt_search_track c tn an al).2.summary = c.summary ∧
    (yt_search_track c tn an al).2.staged = c.staged ∧
    (yt_search_track c tn an al).2.skippedNotFound = c.skippedNotFound ∧
    (yt_search_track c tn an al).2.now = c.now ∧
    (yt_search_track c tn an al).2.cachedPlaylists = c.cachedPlaylists ∧
    (yt_search_track c tn an al).2.trace =
      c.trace ++ [Ev.searchCall ⟨build_query tn an al, "songs", 5⟩] := by
  unfold yt_search_track Ctx.callApi
  cases h : c.api.searchR c.step ⟨build_query tn an al, "songs", 5⟩ <;> simp [h]

theorem yt_get_playlist_tracks_fields (c : Ctx) (pid : String) :
    (yt_get_playlist_tracks c pid).2.api = c.api ∧
    (yt_get_playlist_tracks c pid).2.dest = c.dest ∧
    (yt_get_playlist_tracks c pid).2.state = c.state ∧
    (yt_get_playlist_tracks c pid).2.summary = c.summary ∧
    (yt_get_playlist_tracks c pid).2.staged = c.staged ∧
    (yt_get_playlist_tracks c pid).2.skippedNotFound = c.skippedNotFound ∧
    (yt_get_playlist_tracks c pid).2.now = c.now ∧
    (yt_get_playlist_tracks c pid).2.cachedPlaylists = c.cachedPlaylists ∧
    (yt_get_playlist_tracks c pid).2.trace = c.trace ++ [Ev.getPlaylistCall pid] := by
  unfold yt_get_playlist_tracks Ctx.callApi
  cases h : c.api.getR c.step pid <;> simp [h]

theorem yt_get_playlist_tracks_ok (c : Ctx) (pid : String)
    (h : c.api.getR c.step pid = none) :
    (yt_get_playlist_tracks c pid).1 = extract_tracks (dest_get c.dest pid) := by
  unfold yt_get_playlist_tracks Ctx.callApi
  rw [h]

theorem yt_add_songs_fields (c : Ctx) (pid : String) (vids : List String) :
    (yt_add_songs_to_playlist c pid vids).2.api = c.api ∧
    (yt_add_songs_to_playlist c pid vids).2.state = c.state ∧
    (yt_add_songs_to_playlist c pid vids).2.summary = c.summary ∧
    (yt_add_songs_to_playlist c pid vids).2.staged = c.staged ∧
    (yt_add_songs_to_playlist c pid vids).2.skippedNotFound = c.skippedNotFound ∧
    (yt_add_songs_to_playlist c pid vids).2.now = c.now ∧
    (yt_add_songs_to_playlist c pid vids).2.cachedPlaylists = c.cachedPlaylists := by
  unfold yt_add_songs_to_playlist Ctx.callApi
  by_cases he : vids.isEmpty
  · simp [he]
  · cases h : c.api.addR c.step pid vids <;> simp [he, h]

theorem yt_add_songs_fail (c : Ctx) (pid : String) (vids : List String) (e : ErrKind)
    (hv : vids ≠ []) (h : c.api.addR c.step pid vids = some e) :
    yt_add_songs_to_playlist c pid vids =
      (false, c.callApi (.addCall pid vids)) := by
  unfold yt_add_songs_to_playlist
  rw [if_neg (by simpa [List.isEmpty_iff] using hv), h]

theorem yt_add_songs_ok (c : Ctx) (pid : String) (vids : List String)
    (hv : vids ≠ []) (h : c.api.addR c.step pid vids = none) :
    yt_add_songs_to_playlist c pid vids =
      (true, { c.callApi (.addCall pid vids) with
               dest := dest_add c.dest pid vids }) := by
  unfold yt_add_songs_to_playlist
  rw [if_neg (by simpa [List.isEmpty_iff] using hv), h]
  rfl

theorem yt_get_playlists_fields (c : Ctx) :
    (yt_get_playlists c).2.api = c.api ∧
    (yt_get_playlists c).2.dest = c.dest ∧
    (yt_get_playlists c).2.state = c.state ∧
    (yt_get_playlists c).2.summary = c.summary ∧
    (yt_get_playlists c).2.staged = c.staged ∧
    (yt_get_playlists c).2.skippedNotFound = c.skippedNotFound ∧
    (yt_get_playlists c).2.now = c.now ∧
    (∃ t, (yt_get_playlists c).2.trace = c.trace ++ t) := by
  unfold yt_get_playlists Ctx.callApi
  cases c.cachedPlaylists with
  | some ps => exact ⟨rfl, rfl, rfl, rfl, rfl, rfl, rfl, [], by simp⟩
  | none => cases h : c.api.libR c.step <;> simp [h]

theorem yt_playlist_exists_fields (c : Ctx) (title : String) :
    (yt_playlist_exists c title).2.api = c.api ∧
    (yt_playlist_exists c title).2.dest = c.dest ∧
    (yt_playlist_exists c title).2.state = c.state ∧
    (yt_playlist_exists c title).2.summary = c.summary ∧
    (yt_playlist_exists c title).2.staged = c.staged ∧
    (yt_playlist_exists c title).2.skippedNotFound = c.skippedNotFound ∧
    (yt_playlist_exists c title).2.now = c.now ∧
    (∃ t, (yt_playlist_exists c title).2.trace = c.trace ++ t) := by
  have h := yt_get_playlists_fields c
  unfold yt_playlist_exists
  exact h

theorem yt_create_playlist_fields (c : Ctx) (title descr : String) :
    (yt_create_playlist c title descr).2.api = c.api ∧
    (yt_create_playlist c title descr).2.state = c.state ∧
    (yt_create_playlist c title descr).2.summary = c.summary ∧
    (yt_create_playlist c title descr).2.staged = c.staged ∧
    (yt_create_playlist c title descr).2.skippedNotFound = c.skippedNotFound ∧
    (yt_create_playlist c title descr).2.now = c.now ∧
    (∃ t, (yt_create_playlist c title descr).2.trace = c.trace ++ t) := by
  unfold yt_create_playlist Ctx.callApi
  cases h : c.api.createR (c.step + 1) title with
  | error e => simp [h]
  | ok newId =>
    cases h2 : c.api.getR (c.step + 1 + 1) newId <;> simp [h, h2]

/- ===== Part 5: search contract (C9) and ownership filter (C8). ===== -/

theorem select_first_eq_find (l : List Candidate) :
    select_first l = (l.find? (fun cnd => (truthyS cnd.videoId).isSome)).map cand_to_match := by
  induction l with
  | nil => rfl
  | cons cnd rest ih =>
    cases h : truthyS cnd.videoId <;> simp [select_first, List.find?_cons, h, ih]

/-- C9 counterexample: for an empty album string the built query is just
"title artists" (the album clause is dropped by the truthiness test at
src/youtube_client.py line 136), not the claimed
"title artists album" template, which would end in a trailing space. -/
theorem c9_empty_album_counterexample :
    build_query ("t") ("a") (some ("")) = ("t a") ∧
    build_query ("t") ("a") (some ("")) ≠ ("t") ++ (" ") ++ ("a") ++ (" ") ++ ("") := by
  exact ⟨rfl, by decide⟩

/-- C9 amended: for a non-empty album the query is
"title artistsJoined album"; search_track issues exactly one search
restricted to the song result type with the top 5 candidates requested, and
returns the first candidate carrying a non-empty destination track id
(absent when no candidate qualifies or the search raises). -/
theorem c9_search_track_contract (c : Ctx) (tn an alb : String) (halb : alb ≠ "") :
    build_query tn an (some alb) = tn ++ " " ++ an ++ " " ++ alb ∧
    (yt_search_track c tn an (some alb)).2.trace =
      c.trace ++ [Ev.searchCall ⟨tn ++ " " ++ an ++ " " ++ alb, "songs", 5⟩] ∧
    (yt_search_track c tn an (some alb)).1 =
      (match c.api.searchR c.step ⟨tn ++ " " ++ an ++ " " ++ alb, "songs", 5⟩ with
       | Except.error _ => none
       | Except.ok results =>
         (results.find? (fun cnd => (truthyS cnd.videoId).isSome)).map cand_to_match) := by
  have hq : build_query tn an (some alb) = tn ++ " " ++ an ++ " " ++ alb := by
    simp [build_query, halb]
  refine ⟨hq, ?_, ?_⟩
  · have h := (yt_search_track_fields c tn an (some alb)).2.2.2.2.2.2.2.2
    rw [h, hq]
  · unfold yt_search_track Ctx.callApi
    rw [hq]
    cases h : c.api.searchR c.step ⟨tn ++ " " ++ an ++ " " ++ alb, "songs", 5⟩ <;>
      simp [h, select_first_eq_find]

/-- Concrete oracle for the C9 witness: every search returns one candidate
with a non-empty id. -/
def c9Api : YTApi :=
  { searchR := fun _ _ => Except.ok [{ videoId := some ("v1") }],
    addR := fun _ _ _ => none,
    getR := fun _ _ => none,
    libR := fun _ => Except.ok [],
    createR := fun _ _ => Except.ok ("y1"),
    accR := fun _ => none }

def emptySummary : Summary := ⟨0, 0, 0, 0, 0, []⟩

def emptyMState : MState := ⟨[], [], .cset []⟩

def mkCtx (api : YTApi) (dest : List (String × List Candidate)) (st : MState) : Ctx :=
  { api := api, dest := dest, step := 0, cachedPlaylists := none, state := st,
    summary := emptySummary, trace := [], staged := [], skippedNotFound := 0, now := 0 }

/-- C9 witness: the contract applied at a concrete non-empty album. -/
theorem c9_search_track_contract_witness :
    build_query ("t") ("a") (some ("b")) = ("t") ++ (" ") ++ ("a") ++ (" ") ++ ("b") ∧
    (yt_search_track (mkCtx c9Api [] emptyMState) ("t") ("a") (some ("b"))).2.trace =
      (mkCtx c9Api [] emptyMState).trace ++
        [Ev.searchCall ⟨("t") ++ (" ") ++ ("a") ++ (" ") ++ ("b"), "songs", 5⟩] ∧
    (yt_search_track (mkCtx c9Api [] emptyMState) ("t") ("a") (some ("b"))).1 =
      (match (mkCtx c9Api [] emptyMState).api.searchR (mkCtx c9Api [] emptyMState).step
          ⟨("t") ++ (" ") ++ ("a") ++ (" ") ++ ("b"), "songs", 5⟩ with
       | Except.error _ => none
       | Except.ok results =>
         (results.find? (fun cnd => (truthyS cnd.videoId).isSome)).map cand_to_match) :=
  c9_search_track_contract (mkCtx c9Api [] emptyMState) ("t") ("a") ("b") (by decide)

/-- C8: the ownership filter of run_migration on 5 playlists of which
exactly 2 are owned: the result is exactly the 2 owned playlists plus the
synthetic liked-songs entry (3 entries), and the skip report says 3. -/
theorem c8_ownership_filter (all5 : List SPlaylist) (u : SpotifyUser)
    (hlen : all5.length = 5)
    (hown : (all5.filter (fun p => p.owner == u.display_name || p.owner == u.id)).length = 2) :
    owned_playlists_of all5 u =
      (all5.filter (fun p => p.owner == u.display_name || p.owner == u.id)) ++
        [liked_songs_entry u] ∧
    (owned_playlists_of all5 u).length = 3 ∧
    skipped_report all5 u = some 3 := by
  refine ⟨rfl, ?_, ?_⟩
  · simp [owned_playlists_of, hown]
  · have h3 : skipped_count_of all5 u = 3 := by
      simp only [skipped_count_of, owned_playlists_of, List.length_append, hown, hlen]
      norm_num
    simp [skipped_report, h3]

/-- C8 witness: a concrete list of 5 playlists, 2 owned (one by display
name, one by account id). -/
theorem c8_ownership_filter_witness :
    owned_playlists_of
      [⟨"p1", "A", "Display", some 1, true⟩, ⟨"p2", "B", "uid", some 2, false⟩,
       ⟨"p3", "C", "Other1", some 3, true⟩, ⟨"p4", "D", "Other2", some 4, true⟩,
       ⟨"p5", "E", "Other3", some 5, true⟩] ⟨"uid", "Display"⟩ =
      ([⟨"p1", "A", "Display", some 1, true⟩, ⟨"p2", "B", "uid", some 2, false⟩,
        ⟨"p3", "C", "Other1", some 3, true⟩, ⟨"p4", "D", "Other2", some 4, true⟩,
        ⟨"p5", "E", "Other3", some 5, true⟩].filter
          (fun p => p.owner == SpotifyUser.display_name ⟨"uid", "Display"⟩ ||
                    p.owner == SpotifyUser.id ⟨"uid", "Display"⟩)) ++
        [liked_songs_entry ⟨"uid", "Display"⟩] ∧
    (owned_playlists_of
      [⟨"p1", "A", "Display", some 1, true⟩, ⟨"p2", "B", "uid", some 2, false⟩,
       ⟨"p3", "C", "Other1", some 3, true⟩, ⟨"p4", "D", "Other2", some 4, true⟩,
       ⟨"p5", "E", "Other3", some 5, true⟩] ⟨"uid", "Display"⟩).length = 3 ∧
    skipped_report
      [⟨"p1", "A", "Display", some 1, true⟩, ⟨"p2", "B", "uid", some 2, false⟩,
       ⟨"p3", "C", "Other1", some 3, true⟩, ⟨"p4", "D", "Other2", some 4, true⟩,
       ⟨"p5", "E", "Other3", some 5, true⟩] ⟨"uid", "Display"⟩ = some 3 :=
  c8_ownership_filter _ _ (by decide) (by decide)

/- ===== Part 6: frame reasoning through the per-track and per-chunk
   loops. ===== -/

/-- The context components no step of the chunk-processing phase ever
changes: the oracle, the two playlist-level summary counters, the playlist
mapping and the completion collection of the state; the trace only ever
grows. -/
def FrameT (c c2 : Ctx) : Prop :=
  c2.api = c.api ∧
  c2.summary.playlists_processed = c.summary.playlists_processed ∧
  c2.summary.playlists_created = c.summary.playlists_created ∧
  c2.state.playlists = c.state.playlists ∧
  c2.state.completed = c.state.completed ∧
  ∃ tr, c2.trace = c.trace ++ tr

theorem frameT_refl (c : Ctx) : FrameT c c :=
  ⟨rfl, rfl, rfl, rfl, rfl, [], by simp⟩

theorem frameT_trans {a b c : Ctx} (h1 : FrameT a b) (h2 : FrameT b c) : FrameT a c := by
  obtain ⟨x1, x2, x3, x4, x5, t1, ht1⟩ := h1
  obtain ⟨y1, y2, y3, y4, y5, t2, ht2⟩ := h2
  refine ⟨y1.trans x1, y2.trans x2, y3.trans x3, y4.trans x4, y5.trans x5, t1 ++ t2, ?_⟩
  rw [ht2, ht1, List.append_assoc]

theorem foldl_frameT {α β : Type} (g : α → Ctx) (f : α → β → α)
    (hf : ∀ a b, FrameT (g a) (g (f a b))) :
    ∀ (l : List β) (a : α), FrameT (g a) (g (l.foldl f a)) := by
  intro l
  induction l with
  | nil => intro a; exact frameT_refl _
  | cons b l ih => intro a; exact frameT_trans (hf a b) (ih (f a b))

theorem frameT_mark (c : Ctx) (tid pid status : String) (vid : Option String) :
    FrameT c (c.mark tid pid status vid) :=
  ⟨rfl, rfl, rfl, rfl, rfl, [], by simp [Ctx.mark, MState.mark_track_migrated]⟩

theorem frameT_stage (c : Ctx) (v : String) : FrameT c (c.stage v) :=
  ⟨rfl, rfl, rfl, rfl, rfl, [], by simp [Ctx.stage]⟩

theorem frameT_saveSt (c : Ctx) : FrameT c c.saveSt :=
  ⟨rfl, rfl, rfl, rfl, rfl, [Ev.saveEv c.state], by simp [Ctx.saveSt]⟩

theorem frameT_search (c : Ctx) (tn an : String) (al : Option String) :
    FrameT c (yt_search_track c tn an al).2 := by
  obtain ⟨h1, _, h3, h4, _, _, _, _, h9⟩ := yt_search_track_fields c tn an al
  exact ⟨h1, by rw [h4], by rw [h4], by rw [h3], by rw [h3], _, h9⟩

theorem frameT_get_tracks (c : Ctx) (pid : String) :
    FrameT c (yt_get_playlist_tracks c pid).2 := by
  obtain ⟨h1, _, h3, h4, _, _, _, _, h9⟩ := yt_get_playlist_tracks_fields c pid
  exact ⟨h1, by rw [h4], by rw [h4], by rw [h3], by rw [h3], _, h9⟩

theorem frameT_add_songs (c : Ctx) (pid : String) (vids : List String) :
    FrameT c (yt_add_songs_to_playlist c pid vids).2 := by
  obtain ⟨h1, h2, h3, _, _, _, _⟩ := yt_add_songs_fields c pid vids
  refine ⟨h1, by rw [h3], by rw [h3], by rw [h2], by rw [h2], ?_⟩
  unfold yt_add_songs_to_playlist Ctx.callApi
  by_cases he : vids.isEmpty
  · exact ⟨[], by simp [he]⟩
  · cases h : c.api.addR c.step pid vids <;> simp [he, h]

theorem frameT_search_phase (pid pname : String) (a : ChunkAcc) (t : STrack) :
    FrameT a.ctx (search_phase pid pname a t).ctx := by
  unfold search_phase
  rcases hmc : yt_search_track a.ctx t.name (String.intercalate ", " t.artists) (some t.album)
    with ⟨m, c2⟩
  have hs : FrameT a.ctx c2 := by
    have h := frameT_search a.ctx t.name (String.intercalate ", " t.artists) (some t.album)
    rwa [hmc] at h
  cases m with
  | some yt =>
    by_cases hv : yt.videoId ∈ a.existing
    · simp only [hv, if_true]
      exact frameT_trans hs (frameT_mark c2 t.id pid ("found") (some yt.videoId))
    · simp only [hv, if_false]
      refine frameT_trans hs ?_
      refine frameT_trans (b := { c2 with summary := { c2.summary with
        tracks_migrated := c2.summary.tracks_migrated + 1 } })
        ⟨rfl, rfl, rfl, rfl, rfl, [], by simp⟩ ?_
      refine frameT_trans (frameT_stage _ yt.videoId) ?_
      exact frameT_mark _ t.id pid ("found") (some yt.videoId)
  | none =>
    refine frameT_trans hs ?_
    refine frameT_trans (frameT_mark c2 t.id pid ("not_found") none) ?_
    exact ⟨rfl, rfl, rfl, rfl, rfl, [], by simp⟩

theorem frameT_process_track (pid pname : String) (force : Bool) (a : ChunkAcc) (t : STrack) :
    FrameT a.ctx (process_track pid pname force a t).ctx := by
  unfold process_track
  cases he : a.ctx.state.get_track_status t.id pid with
  | none => exact frameT_search_phase pid pname a t
  | some e =>
    by_cases h1 : force = false ∧ e.status = ("found")
    · simp only [h1, if_true]
      cases ht : truthyS e.youtube_video_id with
      | some v =>
        by_cases hv : v ∈ a.existing
        · simp only [hv, if_true]
          exact frameT_refl _
        · simp only [hv, if_false]
          exact frameT_stage _ _
      | none => exact frameT_search_phase pid pname a t
    · simp only [h1, if_false]
      by_cases h2 : force = false ∧ e.status = ("not_found")
      · simp only [h2, if_true]
        exact ⟨rfl, rfl, rfl, rfl, rfl, [], by simp⟩
      · simp only [h2, if_false]
        exact frameT_search_phase pid pname a t

theorem frameT_add_batch (ytpid pname : String) (acc : Nat × Ctx) (batch : List String) :
    FrameT acc.2 (add_batch ytpid pname acc batch).2 := by
  obtain ⟨total, c⟩ := acc
  unfold add_batch
  dsimp only
  rcases h1 : yt_add_songs_to_playlist c ytpid batch with ⟨ok1, c1⟩
  have f1 : FrameT c c1 := by
    have h := frameT_add_songs c ytpid batch
    rwa [h1] at h
  cases ok1 with
  | true => exact f1
  | false =>
    dsimp only
    rcases h2 : yt_add_songs_to_playlist c1 ytpid batch with ⟨ok2, c2⟩
    have f2 : FrameT c1 c2 := by
      have h := frameT_add_songs c1 ytpid batch
      rwa [h2] at h
    cases ok2 with
    | true => exact frameT_trans f1 f2
    | false => exact frameT_trans f1 (frameT_trans f2 (frameT_get_tracks c2 ytpid))

theorem frameT_add_tracks_in_batches (c : Ctx) (ytpid : String) (vids : List String)
    (pname : String) : FrameT c (add_tracks_in_batches c ytpid vids pname).2 := by
  unfold add_tracks_in_batches
  exact foldl_frameT Prod.snd (add_batch ytpid pname) (frameT_add_batch ytpid pname)
    (chunks_of 50 vids) (0, c)

theorem frameT_process_chunk (pid ytpid pname : String) (force : Bool) (s : PassAcc)
    (chunk : List STrack) : FrameT s.ctx (process_chunk pid ytpid pname force s chunk).ctx := by
  unfold process_chunk
  have h1 : FrameT s.ctx (chunk.foldl (process_track pid pname force)
      ⟨s.ctx, s.existing, []⟩).ctx :=
    foldl_frameT ChunkAcc.ctx (process_track pid pname force)
      (frameT_process_track pid pname force) chunk ⟨s.ctx, s.existing, []⟩
  set a := chunk.foldl (process_track pid pname force) ⟨s.ctx, s.existing, []⟩ with ha
  by_cases he : a.chunkIds.isEmpty
  · simp only [he, if_true]
    exact frameT_trans h1 (frameT_saveSt _)
  · simp only [he, if_false]
    exact frameT_trans h1 (frameT_trans
      (frameT_add_tracks_in_batches a.ctx ytpid a.chunkIds pname) (frameT_saveSt _))

theorem frameT_pass (c : Ctx) (tracks : List STrack) (pid ytpid pname : String)
    (existing : List String) (force : Bool) :
    FrameT c ((chunks_of 200 tracks).foldl (process_chunk pid ytpid pname force)
      ⟨c, existing, 0⟩).ctx :=
  foldl_frameT PassAcc.ctx (process_chunk pid ytpid pname force)
    (frameT_process_chunk pid ytpid pname force) (chunks_of 200 tracks) ⟨c, existing, 0⟩

/-- Shared spec of the chunk-processing phase: it always returns true,
marks the playlist completed and bumps the processed counter, for every
oracle behaviour. -/
theorem chunk_phase_spec (c : Ctx) (tracks : List STrack)
    (pid ytid pname : String) (existing : List String) (force : Bool) :
    (process_tracks_in_chunks c tracks pid ytid pname existing force).1 = true ∧
    (process_tracks_in_chunks c tracks pid ytid pname existing force).2.state.is_playlist_completed
      pid = true ∧
    (process_tracks_in_chunks c tracks pid ytid pname existing force).2.summary.playlists_processed
      = c.summary.playlists_processed + 1 := by
  obtain ⟨_, hproc, _, _, _, _⟩ := frameT_pass c tracks pid ytid pname existing force
  unfold process_tracks_in_chunks
  refine ⟨rfl, ?_, ?_⟩
  · simp [Ctx.saveSt, MState.is_playlist_completed, has_addC_self]
  · simp [Ctx.saveSt, hproc]

/-- C7: once a destination playlist id is in hand, the chunk-processing
phase always marks the playlist completed, increments the
playlists-processed counter by one, and returns true, whatever the source
tracks, the cached state and the adapter behaviour (including every search
missing and every batch add failing twice). -/
theorem c7_chunk_phase_always_completes (c : Ctx) (tracks : List STrack)
    (pid ytid pname : String) (existing : List String) (force : Bool) :
    (process_tracks_in_chunks c tracks pid ytid pname existing force).1 = true ∧
    (process_tracks_in_chunks c tracks pid ytid pname existing force).2.state.is_playlist_completed
      pid = true ∧
    (process_tracks_in_chunks c tracks pid ytid pname existing force).2.summary.playlists_processed
      = c.summary.playlists_processed + 1 :=
  chunk_phase_spec c tracks pid ytid pname existing force

/- ===== Part 7: concrete runs refuting C1, C2, C3 and exhibiting C4. ===== -/

/-- Bool test for an insertion-batch submission event. -/
def is_add_call : Ev → Bool
  | .addCall _ _ => true
  | _ => false

/-- Oracle for C4: every search raises an auth-marked exception; everything
else succeeds. -/
def c4Api : YTApi :=
  { searchR := fun _ _ => Except.error ErrKind.auth,
    addR := fun _ _ _ => none,
    getR := fun _ _ => none,
    libR := fun _ => Except.ok [],
    createR := fun _ _ => Except.ok ("y1"),
    accR := fun _ => none }

def c4run : Bool × Ctx :=
  process_tracks_in_chunks (mkCtx c4Api [] emptyMState)
    [⟨"t1", "Song", ["Artist"], "Album"⟩] ("p1") ("y1") ("pn") [] false

/-- C4 (code-bug evidence): when the destination search fails with an
auth-marked error, search_track degrades to None and the engine persists a
permanent not_found resolution for the track; a later pass then skips the
track because of that resolution (skippedNotFound grows) instead of
retrying it, contradicting the treat-as-retry-later contract. -/
theorem c4_auth_search_persists_not_found :
    c4run.2.state.get_track_status ("t1") ("p1") =
      some { status := "not_found", youtube_video_id := none, timestamp := 0 } ∧
    c4run.2.staged = [] ∧
    (process_tracks_in_chunks c4run.2 [⟨"t1", "Song", ["Artist"], "Album"⟩]
        ("p1") ("y1") ("pn") [] false).2.skippedNotFound = c4run.2.skippedNotFound + 1 := by
  decide

/-- Oracle for C1: searches hit (distinct ids per call), every batch add
fails, and every direct playlist read fails (the destination playlist is
gone). -/
def c1Api : YTApi :=
  { searchR := fun k _ => Except.ok [{ videoId := some ("v" ++ Nat.repr k) }],
    addR := fun _ _ _ => some ErrKind.other,
    getR := fun _ _ => some ErrKind.other,
    libR := fun _ => Except.error ErrKind.other,
    createR := fun _ _ => Except.error ErrKind.other,
    accR := fun _ => none }

def c1tracks : List STrack :=
  (List.range 10).map (fun i => ⟨"t" ++ Nat.repr i, "Song " ++ Nat.repr i, ["A"], "Al"⟩)

def c1state : MState := ⟨[("p1", ⟨"y1", "Spot P"⟩)], [], .cset []⟩

def c1run : Bool × Ctx :=
  migrate_playlist (mkCtx c1Api [] c1state) ⟨"p1", "P", "Me", some 10, true⟩
    c1tracks false false

/-- C1 counterexample: a batch of 10 ids is submitted and fails twice (the
two addCall events), and the subsequent existence probe fails (the playlist
is gone), yet migrate_playlist returns True with the playlist IN the
completion set: the playlist-gone abort never fires because the client
absorbs the read failure, and completion is marked unconditionally. -/
theorem c1_counterexample :
    c1run.1 = true ∧
    c1run.2.state.is_playlist_completed ("p1") = true ∧
    c1run.2.trace.countP is_add_call = 2 ∧
    c1run.2.staged.length = 10 := by
  decide

/-- Oracle for C2: no fresh search hits are needed; adds and reads
succeed. -/
def c2Api : YTApi :=
  { searchR := fun _ _ => Except.ok [],
    addR := fun _ _ _ => none,
    getR := fun _ _ => none,
    libR := fun _ => Except.ok [],
    createR := fun _ _ => Except.error ErrKind.other,
    accR := fun _ => none }

/-- Two distinct source tracks whose cached Found resolutions point at the
same destination id. -/
def c2state : MState :=
  ⟨[("p1", ⟨"y1", "Spot P"⟩)],
   [("p1:t1", ⟨"found", some ("v"), 0⟩), ("p1:t2", ⟨"found", some ("v"), 0⟩)],
   .cset []⟩

def c2run : Bool × Ctx :=
  migrate_playlist (mkCtx c2Api [] c2state) ⟨"p1", "P", "Me", some 2, true⟩
    [⟨"t1", "S1", ["A"], "B"⟩, ⟨"t2", "S2", ["A"], "B"⟩] false false

/-- C2 counterexample: the cached-Found staging path does not update the
dedup set, so two tracks cached to the same destination id are both staged
within one pass and the id appears twice in a single submitted insertion
batch. -/
theorem c2_counterexample :
    c2run.2.staged = ["v", "v"] ∧
    ¬ c2run.2.staged.Nodup ∧
    Ev.addCall ("y1") ["v", "v"] ∈ c2run.2.trace := by
  decide

/-- Oracle for C3: searches hit with a fixed id, reads succeed, but every
batch add fails (so the destination playlist never changes). -/
def c3Api : YTApi :=
  { searchR := fun _ _ => Except.ok [{ videoId := some ("v1") }],
    addR := fun _ _ _ => some ErrKind.other,
    getR := fun _ _ => none,
    libR := fun _ => Except.ok [],
    createR := fun _ _ => Except.error ErrKind.other,
    accR := fun _ => none }

def c3state : MState := ⟨[("p1", ⟨"y1", "Spot P"⟩)], [], .cset []⟩

def c3dest : List (String × List Candidate) := [("y1", [])]

def c3run1 : Bool × Ctx :=
  migrate_playlist (mkCtx c3Api c3dest c3state) ⟨"p1", "P", "Me", some 1, true⟩
    [⟨"t1", "S", ["A"], "B"⟩] false false

def c3run2 : Bool × Ctx :=
  migrate_playlist c3run1.2 ⟨"p1", "P", "Me", some 1, true⟩
    [⟨"t1", "S", ["A"], "B"⟩] false false

/-- C3 counterexample: when the first run's only insertion batch fails
(twice), the destination playlist is unchanged between the two runs, yet the
second run re-stages the cached Found id and submits it again (two addCall
events: attempt and retry), so the second run does not submit zero
insertions. -/
theorem c3_counterexample :
    c3run1.2.dest = c3dest ∧
    c3run2.2.staged = ["v1", "v1"] ∧
    (c3run2.2.trace.drop c3run1.2.trace.length).countP is_add_call = 2 := by
  decide

/- ===== Part 8: C1 amended — failed batches abandon nothing and the
   playlist still completes. ===== -/

theorem add_batch_all_fail (ytpid pname : String) (acc : Nat × Ctx) (batch : List String)
    (hb : batch ≠ []) (hAdd : ∀ k p v, ∃ e, acc.2.api.addR k p v = some e) :
    (add_batch ytpid pname acc batch).1 = acc.1 ∧
    (add_batch ytpid pname acc batch).2.api = acc.2.api ∧
    (add_batch ytpid pname acc batch).2.trace = acc.2.trace ++
      [Ev.addCall ytpid batch, Ev.addCall ytpid batch, Ev.getPlaylistCall ytpid] := by
  obtain ⟨total, c⟩ := acc
  obtain ⟨e1, he1⟩ := hAdd c.step ytpid batch
  unfold add_batch
  dsimp only
  rw [yt_add_songs_fail c ytpid batch e1 hb he1]
  dsimp only
  obtain ⟨e2, he2⟩ := hAdd (c.callApi (Ev.addCall ytpid batch)).step ytpid batch
  rw [yt_add_songs_fail (c.callApi (Ev.addCall ytpid batch)) ytpid batch e2 hb he2]
  simp only [Bool.false_eq_true, if_false]
  rcases h3 : yt_get_playlist_tracks ((c.callApi (Ev.addCall ytpid batch)).callApi
    (Ev.addCall ytpid batch)) ytpid with ⟨ts, c3⟩
  have hf := yt_get_playlist_tracks_fields ((c.callApi (Ev.addCall ytpid batch)).callApi
    (Ev.addCall ytpid batch)) ytpid
  rw [h3] at hf
  refine ⟨trivial, ?_, ?_⟩
  · rw [hf.1]; rfl
  · rw [hf.2.2.2.2.2.2.2.2]
    simp [Ctx.callApi]

theorem add_batches_all_fail (ytpid pname : String) :
    ∀ (bs : List (List String)) (acc : Nat × Ctx),
      (∀ b ∈ bs, b ≠ []) →
      (∀ k p v, ∃ e, acc.2.api.addR k p v = some e) →
      (bs.foldl (add_batch ytpid pname) acc).1 = acc.1 ∧
      (bs.foldl (add_batch ytpid pname) acc).2.api = acc.2.api ∧
      (bs.foldl (add_batch ytpid pname) acc).2.trace.countP is_add_call =
        acc.2.trace.countP is_add_call + 2 * bs.length := by
  intro bs
  induction bs with
  | nil => intro acc _ _; exact ⟨rfl, rfl, by simp⟩
  | cons b bs ih =>
    intro acc hb hAdd
    obtain ⟨h1, h2, h3⟩ := add_batch_all_fail ytpid pname acc b (hb b (by simp)) hAdd
    obtain ⟨g1, g2, g3⟩ := ih (add_batch ytpid pname acc b)
      (fun x hx => hb x (by simp [hx])) (by rw [h2]; exact hAdd)
    refine ⟨by rw [List.foldl_cons, g1, h1], by rw [List.foldl_cons, g2, h2], ?_⟩
    rw [List.foldl_cons, g3, h3]
    simp only [List.countP_append, List.length_cons]
    have hcount : List.countP is_add_call
        [Ev.addCall ytpid b, Ev.addCall ytpid b, Ev.getPlaylistCall ytpid] = 2 := by
      simp [List.countP_cons, is_add_call]
    rw [hcount]
    ring

/-- C1 amended: when every batch add fails (so each batch fails its attempt
and its retry, and the subsequent existence probe fails or not), the batch
loop abandons nothing — every one of the ceil(|vids|/50) batches is
submitted exactly twice, zero ids are reported added — and the chunk phase
still returns true with the playlist in the completion set.  The abort the
spec describes is unreachable because the client absorbs the probe
failure. -/
theorem c1_failed_batches_still_complete (c : Ctx) (ytid vids pname)
    (tracks : List STrack) (pid pname2 : String) (ex : List String) (force : Bool)
    (hAdd : ∀ k p v, ∃ e, c.api.addR k p v = some e) :
    (add_tracks_in_batches c ytid vids pname).1 = 0 ∧
    (add_tracks_in_batches c ytid vids pname).2.trace.countP is_add_call =
      c.trace.countP is_add_call + 2 * (chunks_of 50 vids).length ∧
    (process_tracks_in_chunks c tracks pid ytid pname2 ex force).1 = true ∧
    (process_tracks_in_chunks c tracks pid ytid pname2 ex force).2.state.is_playlist_completed
      pid = true := by
  obtain ⟨h1, _, h3⟩ := add_batches_all_fail ytid pname (chunks_of 50 vids) (0, c)
    (chunks_of_ne_nil 50 vids) hAdd
  exact ⟨h1, h3, (chunk_phase_spec c tracks pid ytid pname2 ex force).1,
    (chunk_phase_spec c tracks pid ytid pname2 ex force).2.1⟩

/-- Oracle for the C1-amended witness: adds always fail, reads always
fail. -/
def c1amApi : YTApi :=
  { searchR := fun _ _ => Except.ok [],
    addR := fun _ _ _ => some ErrKind.other,
    getR := fun _ _ => some ErrKind.other,
    libR := fun _ => Except.ok [],
    createR := fun _ _ => Except.error ErrKind.other,
    accR := fun _ => none }

/-- C1 amended witness at a concrete always-failing oracle and a two-id
staging buffer. -/
theorem c1_failed_batches_still_complete_witness :
    (add_tracks_in_batches (mkCtx c1amApi [] emptyMState) ("y1") [("a"), ("b")] ("pn")).1 = 0 ∧
    (add_tracks_in_batches (mkCtx c1amApi [] emptyMState) ("y1")
        [("a"), ("b")] ("pn")).2.trace.countP is_add_call =
      (mkCtx c1amApi [] emptyMState).trace.countP is_add_call +
        2 * (chunks_of 50 [("a"), ("b")]).length ∧
    (process_tracks_in_chunks (mkCtx c1amApi [] emptyMState) [⟨"t1", "S", ["A"], "B"⟩]
        ("p1") ("y1") ("pn") [] false).1 = true ∧
    (process_tracks_in_chunks (mkCtx c1amApi [] emptyMState) [⟨"t1", "S", ["A"], "B"⟩]
        ("p1") ("y1") ("pn") [] false).2.state.is_playlist_completed ("p1") = true :=
  c1_failed_batches_still_complete (mkCtx c1amApi [] emptyMState) ("y1") [("a"), ("b")] ("pn")
    [⟨"t1", "S", ["A"], "B"⟩] ("p1") ("pn") [] false
    (fun _ _ _ => ⟨ErrKind.other, rfl⟩)

/- ===== Part 9: C2 amended — staged ids are pairwise distinct when the
   pass starts without cached Found resolutions. ===== -/

theorem foldl_keeps {α β γ : Type} (g : α → γ) (f : α → β → α)
    (hf : ∀ a b, g (f a b) = g a) : ∀ (l : List β) (a : α), g (l.foldl f a) = g a := by
  intro l
  induction l with
  | nil => intro a; rfl
  | cons b l ih => intro a; rw [List.foldl_cons, ih, hf]

theorem select_first_vid_ne {l : List Candidate} {m : TrackMatch}
    (h : select_first l = some m) : m.videoId ≠ "" := by
  induction l with
  | nil => simp [select_first] at h
  | cons cnd rest ih =>
    unfold select_first at h
    cases ht : truthyS cnd.videoId with
    | some w =>
      rw [ht] at h
      obtain ⟨hv, hw⟩ := truthyS_eq_some.mp ht
      have hm : m = cand_to_match cnd := by
        simpa using h.symm
      rw [hm]
      simp [cand_to_match, hv]
      exact hw
    | none =>
      rw [ht] at h
      exact ih h

theorem yt_search_hit_ne {c : Ctx} {tn an : String} {al : Option String} {yt : TrackMatch}
    (h : (yt_search_track c tn an al).1 = some yt) : yt.videoId ≠ "" := by
  unfold yt_search_track Ctx.callApi at h
  dsimp only at h
  cases hr : c.api.searchR c.step ⟨build_query tn an al, "songs", 5⟩ with
  | error e => rw [hr] at h; simp at h
  | ok results =>
    rw [hr] at h
    simp only at h
    exact select_first_vid_ne h

theorem get_track_status_mark (s : MState) (tid pid tid2 status : String)
    (vid : Option String) (n : Nat) :
    (s.mark_track_migrated tid pid status vid n).get_track_status tid2 pid =
      if track_key pid tid = track_key pid tid2 then some ⟨status, vid, n⟩
      else s.get_track_status tid2 pid := by
  unfold MState.get_track_status MState.mark_track_migrated
  exact alookup_aset _ _ _ _

/-- Invariant of the per-track loop for the dedup property: the ghost
staged log is duplicate-free and inside the dedup set, and every Found
resolution on record for this playlist carries an id already in the dedup
set. -/
def c2_inv (pid : String) (a : ChunkAcc) : Prop :=
  a.ctx.staged.Nodup ∧
  (∀ v ∈ a.ctx.staged, v ∈ a.existing) ∧
  (∀ tid e, a.ctx.state.get_track_status tid pid = some e →
    e.status = ("found") → ∀ v, truthyS e.youtube_video_id = some v → v ∈ a.existing)

theorem c2_inv_search_phase (pid pname : String) (a : ChunkAcc) (t : STrack)
    (h : c2_inv pid a) : c2_inv pid (search_phase pid pname a t) := by
  obtain ⟨hnd, hsub, hfound⟩ := h
  unfold search_phase
  rcases hmc : yt_search_track a.ctx t.name (String.intercalate ", " t.artists) (some t.album)
    with ⟨m, c2⟩
  have hfields := yt_search_track_fields a.ctx t.name (String.intercalate ", " t.artists)
    (some t.album)
  rw [hmc] at hfields
  obtain ⟨_, _, hstate, _, hstaged, _, _, _, _⟩ := hfields
  cases m with
  | none =>
    refine ⟨by simpa [Ctx.mark] using hstaged ▸ hnd, ?_, ?_⟩
    · intro v hv
      simp only [Ctx.mark] at hv
      exact hsub v (hstaged ▸ hv)
    · intro tid e he hst v hv
      simp only [Ctx.mark, hstate] at he
      rw [get_track_status_mark] at he
      split at he
      · have : e = ⟨("not_found"), none, c2.now⟩ := by
          exact (Option.some.injEq _ _ ▸ he).symm
        rw [this] at hst
        simp at hst
      · exact hfound tid e (hstate ▸ he) hst v hv
  | some yt =>
    have hvne : yt.videoId ≠ "" := by
      exact @yt_search_hit_ne a.ctx t.name (String.intercalate ", " t.artists)
        (some t.album) yt (by rw [hmc])
    by_cases hv : yt.videoId ∈ a.existing
    · simp only [hv, if_true]
      refine ⟨by simpa [Ctx.mark] using hstaged ▸ hnd, ?_, ?_⟩
      · intro w hw
        simp only [Ctx.mark] at hw
        exact hsub w (hstaged ▸ hw)
      · intro tid e he hst w hw
        simp only [Ctx.mark, hstate] at he
        rw [get_track_status_mark] at he
        split at he
        · have he2 : e = ⟨("found"), some yt.videoId, c2.now⟩ :=
            (Option.some.injEq _ _ ▸ he).symm
          rw [he2] at hw
          obtain ⟨hw1, _⟩ := truthyS_eq_some.mp hw
          have : w = yt.videoId := by
            simpa using hw1.symm
          rw [this]
          exact hv
        · exact hfound tid e (hstate ▸ he) hst w hw
    · simp only [hv, if_false]
      refine ⟨?_, ?_, ?_⟩
      · simp only [Ctx.mark, Ctx.stage]
        rw [hstaged]
        simp only [List.nodup_append, List.nodup_cons, List.nodup_nil]
        refine ⟨hnd, by simp, ?_⟩
        intro w hw hwv
        simp only [List.mem_singleton] at hwv
        exact hv (hwv ▸ hsub w hw)
      · intro w hw
        simp only [Ctx.mark, Ctx.stage] at hw
        rw [hstaged] at hw
        rcases List.mem_append.mp hw with hw | hw
        · exact mem_insert_set_of_mem _ (hsub w hw)
        · simp only [List.mem_singleton] at hw
          exact hw ▸ mem_insert_set_self _ _
      · intro tid e he hst w hw
        simp only [Ctx.mark, Ctx.stage, hstate] at he
        rw [get_track_status_mark] at he
        split at he
        · have he2 : e = ⟨("found"), some yt.videoId, _⟩ :=
            (Option.some.injEq _ _ ▸ he).symm
          rw [he2] at hw
          obtain ⟨hw1, _⟩ := truthyS_eq_some.mp hw
          have : w = yt.videoId := by
            simpa using hw1.symm
          rw [this]
          exact mem_insert_set_self _ _
        · exact mem_insert_set_of_mem _
            (hfound tid e (hstate ▸ he) hst w hw)

theorem c2_inv_process_track (pid pname : String) (force : Bool) (a : ChunkAcc) (t : STrack)
    (h : c2_inv pid a) : c2_inv pid (process_track pid pname force a t) := by
  unfold process_track
  cases he : a.ctx.state.get_track_status t.id pid with
  | none => exact c2_inv_search_phase pid pname a t h
  | some e =>
    by_cases h1 : force = false ∧ e.status = ("found")
    · simp only [h1, if_true]
      cases ht : truthyS e.youtube_video_id with
      | some v =>
        have hv : v ∈ a.existing := h.2.2 t.id e he h1.2 v ht
        simp only [hv, if_true]
        exact h
      | none => exact c2_inv_search_phase pid pname a t h
    · simp only [h1, if_false]
      by_cases h2 : force = false ∧ e.status = ("not_found")
      · simp only [h2, if_true]
        exact ⟨h.1, h.2.1, h.2.2⟩
      · simp only [h2, if_false]
        exact c2_inv_search_phase pid pname a t h

theorem add_batch_keeps (ytpid pname : String) (acc : Nat × Ctx) (batch : List String) :
    (add_batch ytpid pname acc batch).2.state = acc.2.state ∧
    (add_batch ytpid pname acc batch).2.staged = acc.2.staged := by
  obtain ⟨total, c⟩ := acc
  unfold add_batch
  dsimp only
  rcases h1 : yt_add_songs_to_playlist c ytpid batch with ⟨ok1, c1⟩
  have f1 := yt_add_songs_fields c ytpid batch
  rw [h1] at f1
  cases ok1 with
  | true => exact ⟨f1.2.1, f1.2.2.2.1⟩
  | false =>
    dsimp only
    rcases h2 : yt_add_songs_to_playlist c1 ytpid batch with ⟨ok2, c2⟩
    have f2 := yt_add_songs_fields c1 ytpid batch
    rw [h2] at f2
    cases ok2 with
    | true => exact ⟨f2.2.1.trans f1.2.1, f2.2.2.2.1.trans f1.2.2.2.1⟩
    | false =>
      have f3 := yt_get_playlist_tracks_fields c2 ytpid
      exact ⟨f3.2.2.1.trans (f2.2.1.trans f1.2.1),
             f3.2.2.2.2.1.trans (f2.2.2.2.1.trans f1.2.2.2.1)⟩

/-- The pass-level dedup invariant between chunks. -/
def c2_pass_inv (pid : String) (s : PassAcc) : Prop :=
  c2_inv pid ⟨s.ctx, s.existing, []⟩

theorem c2_inv_fold_track (pid pname : String) (force : Bool) :
    ∀ (chunk : List STrack) (a : ChunkAcc), c2_inv pid a →
      c2_inv pid (chunk.foldl (process_track pid pname force) a) := by
  intro chunk
  induction chunk with
  | nil => intro a h; exact h
  | cons t chunk ih => intro a h; exact ih _ (c2_inv_process_track pid pname force a t h)

theorem c2_pass_inv_chunk (pid ytid pname : String) (force : Bool) (s : PassAcc)
    (chunk : List STrack) (h : c2_pass_inv pid s) :
    c2_pass_inv pid (process_chunk pid ytid pname force s chunk) := by
  unfold process_chunk
  have ha := c2_inv_fold_track pid pname force chunk ⟨s.ctx, s.existing, []⟩ h
  set a := chunk.foldl (process_track pid pname force) ⟨s.ctx, s.existing, []⟩ with hadef
  dsimp only
  by_cases he : a.chunkIds.isEmpty = true
  · rw [if_pos he]
    exact ⟨ha.1, ha.2.1, ha.2.2⟩
  · rw [if_neg he]
    rcases hab : add_tracks_in_batches a.ctx ytid a.chunkIds pname with ⟨added, c2⟩
    have hk := foldl_keeps (fun acc : Nat × Ctx => (acc.2.state, acc.2.staged))
      (add_batch ytid pname)
      (fun acc b => by
        obtain ⟨k1, k2⟩ := add_batch_keeps ytid pname acc b
        simp [k1, k2]) (chunks_of 50 a.chunkIds) (0, a.ctx)
    have hk2 : (c2.state, c2.staged) = (a.ctx.state, a.ctx.staged) := by
      have heq : add_tracks_in_batches a.ctx ytid a.chunkIds pname =
          (chunks_of 50 a.chunkIds).foldl (add_batch ytid pname) (0, a.ctx) := rfl
      rw [hab] at heq
      rw [← heq] at hk
      exact hk
    have hst : c2.state = a.ctx.state := congrArg Prod.fst hk2
    have hsg : c2.staged = a.ctx.staged := congrArg Prod.snd hk2
    refine ⟨?_, ?_, ?_⟩
    · show c2.saveSt.staged.Nodup
      simpa [Ctx.saveSt, hsg] using ha.1
    · intro v hv
      simp only [Ctx.saveSt] at hv
      rw [hsg] at hv
      exact ha.2.1 v hv
    · intro tid e hee hstt v hvv
      simp only [Ctx.saveSt] at hee
      rw [hst] at hee
      exact ha.2.2 tid e hee hstt v hvv

theorem c2_pass_inv_fold (pid ytid pname : String) (force : Bool) :
    ∀ (chs : List (List STrack)) (s : PassAcc), c2_pass_inv pid s →
      c2_pass_inv pid (chs.foldl (process_chunk pid ytid pname force) s) := by
  intro chs
  induction chs with
  | nil => intro s h; exact h
  | cons ch chs ih =>
    intro s h
    exact ih _ (c2_pass_inv_chunk pid ytid pname force s ch h)

/-- C2 amended: within a single playlist pass started with no cached Found
resolution for the playlist (a first run, or a pass after force-reprocess
clearing), no destination id is staged twice, hence no id appears twice
across the distinct insertion batches submitted to the Adapter (the batches
are the 50-slices of the staged buffer; a failed batch is re-submitted
verbatim once).  With cached Found resolutions present the property fails,
because the cached-staging path does not update the dedup set. -/
theorem c2_staged_nodup (c : Ctx) (tracks : List STrack) (pid ytid pname : String)
    (existing : List String) (force : Bool)
    (hstaged : c.staged = [])
    (hnf : ∀ tid e, c.state.get_track_status tid pid = some e → e.status ≠ ("found")) :
    ((process_tracks_in_chunks c tracks pid ytid pname existing force).2.staged).Nodup := by
  have h0 : c2_pass_inv pid ⟨c, existing, 0⟩ := by
    refine ⟨?_, ?_, ?_⟩
    · rw [hstaged]; exact List.nodup_nil
    · intro v hv
      rw [hstaged] at hv
      simp at hv
    · intro tid e he hst v _
      exact absurd hst (hnf tid e he)
  have hfold := c2_pass_inv_fold pid ytid pname force (chunks_of 200 tracks) ⟨c, existing, 0⟩ h0
  exact hfold.1

/-- Oracle for the C2-amended witness: two searches hitting two distinct
ids. -/
def c2amApi : YTApi :=
  { searchR := fun k _ => Except.ok [{ videoId := some ("w" ++ Nat.repr k) }],
    addR := fun _ _ _ => none,
    getR := fun _ _ => none,
    libR := fun _ => Except.ok [],
    createR := fun _ _ => Except.error ErrKind.other,
    accR := fun _ => none }

/-- C2 amended witness: a two-track first pass (no cached resolutions)
stages pairwise-distinct ids. -/
theorem c2_staged_nodup_witness :
    ((process_tracks_in_chunks (mkCtx c2amApi [] emptyMState)
        [⟨"t1", "S1", ["A"], "B"⟩, ⟨"t2", "S2", ["A"], "B"⟩]
        ("p1") ("y1") ("pn") [] false).2.staged).Nodup :=
  c2_staged_nodup (mkCtx c2amApi [] emptyMState)
    [⟨"t1", "S1", ["A"], "B"⟩, ⟨"t2", "S2", ["A"], "B"⟩] ("p1") ("y1") ("pn") [] false rfl
    (fun tid e he => by
      simp [mkCtx, emptyMState, MState.get_track_status, alookup] at he)

/- ===== Part 10: C5 — force-reprocess clears everything before any
   adapter work. ===== -/

/-- Well-formedness of the completion collection: a loaded list has no
duplicates (save_state writes list(set), which cannot duplicate). -/
def completed_wf : CompletedColl → Prop
  | .cset _ => True
  | .clist xs => xs.Nodup

theorem remove_first_sublist (xs : List String) (p : String) :
    (remove_first xs p).Sublist xs := by
  induction xs with
  | nil => simp [remove_first]
  | cons x xs ih =>
    by_cases h : x = p
    · simp only [remove_first, h, if_true]
      exact List.sublist_cons_self _ _
    · simp only [remove_first, h, if_false]
      exact List.Sublist.cons₂ x ih

theorem not_mem_remove_first {xs : List String} {p : String} (h : xs.Nodup) (hm : p ∈ xs) :
    p ∉ remove_first xs p := by
  induction xs with
  | nil => simp at hm
  | cons x xs ih =>
    rcases List.nodup_cons.mp h with ⟨hx, hnd⟩
    by_cases he : x = p
    · simp only [remove_first, he, if_true]
      exact he ▸ hx
    · simp only [remove_first, he, if_false]
      intro hc
      rcases List.mem_cons.mp hc with hc | hc
      · exact he hc.symm
      · rcases List.mem_cons.mp hm with hm | hm
        · exact he hm.symm
        · exact ih hnd hm hc

theorem removeC_has_false (coll : CompletedColl) (p : String) (h : completed_wf coll) :
    (coll.removeC p).has p = false := by
  cases coll with
  | cset xs =>
    simp [CompletedColl.removeC, CompletedColl.has, List.mem_filter]
  | clist xs =>
    by_cases hm : p ∈ xs
    · simp only [CompletedColl.removeC, hm, if_true, CompletedColl.has]
      simpa using not_mem_remove_first h hm
    · simp only [CompletedColl.removeC, hm, if_false, CompletedColl.has]
      simpa using hm

theorem removeC_wf (coll : CompletedColl) (p : String) (h : completed_wf coll) :
    completed_wf (coll.removeC p) := by
  cases coll with
  | cset xs => trivial
  | clist xs =>
    by_cases hm : p ∈ xs
    · simp only [CompletedColl.removeC, hm, if_true]
      exact (remove_first_sublist xs p).nodup h
    · simp only [CompletedColl.removeC, hm, if_false]
      exact h

theorem add_batch_keeps_skipped (ytpid pname : String) (acc : Nat × Ctx)
    (batch : List String) :
    (add_batch ytpid pname acc batch).2.skippedNotFound = acc.2.skippedNotFound := by
  obtain ⟨total, c⟩ := acc
  unfold add_batch
  dsimp only
  rcases h1 : yt_add_songs_to_playlist c ytpid batch with ⟨ok1, c1⟩
  have f1 := yt_add_songs_fields c ytpid batch
  rw [h1] at f1
  cases ok1 with
  | true => exact f1.2.2.2.2.1
  | false =>
    dsimp only
    rcases h2 : yt_add_songs_to_playlist c1 ytpid batch with ⟨ok2, c2⟩
    have f2 := yt_add_songs_fields c1 ytpid batch
    rw [h2] at f2
    cases ok2 with
    | true => exact f2.2.2.2.2.1.trans f1.2.2.2.2.1
    | false =>
      have f3 := yt_get_playlist_tracks_fields c2 ytpid
      exact f3.2.2.2.2.2.1.trans (f2.2.2.2.2.1.trans f1.2.2.2.2.1)

theorem skipped_search_phase (pid pname : String) (a : ChunkAcc) (t : STrack) :
    (search_phase pid pname a t).ctx.skippedNotFound = a.ctx.skippedNotFound := by
  unfold search_phase
  rcases hmc : yt_search_track a.ctx t.name (String.intercalate ", " t.artists) (some t.album)
    with ⟨m, c2⟩
  have hf := yt_search_track_fields a.ctx t.name (String.intercalate ", " t.artists)
    (some t.album)
  rw [hmc] at hf
  cases m with
  | none => exact hf.2.2.2.2.2.1
  | some yt =>
    by_cases hv : yt.videoId ∈ a.existing
    · simp only [hv, if_true]
      exact hf.2.2.2.2.2.1
    · simp only [hv, if_false]
      exact hf.2.2.2.2.2.1

theorem skipped_process_track_force (pid pname : String) (a : ChunkAcc) (t : STrack) :
    (process_track pid pname true a t).ctx.skippedNotFound = a.ctx.skippedNotFound := by
  unfold process_track
  cases he : a.ctx.state.get_track_status t.id pid with
  | none => exact skipped_search_phase pid pname a t
  | some e =>
    have h1 : ¬(true = false ∧ e.status = ("found")) := by simp
    have h2 : ¬(true = false ∧ e.status = ("not_found")) := by simp
    simp only [h1, h2, if_false]
    exact skipped_search_phase pid pname a t

theorem skipped_process_chunk_force (pid ytid pname : String) (s : PassAcc)
    (chunk : List STrack) :
    (process_chunk pid ytid pname true s chunk).ctx.skippedNotFound =
      s.ctx.skippedNotFound := by
  unfold process_chunk
  dsimp only
  have hfold := foldl_keeps (fun x : ChunkAcc => x.ctx.skippedNotFound)
    (process_track pid pname true) (fun x t => skipped_process_track_force pid pname x t)
    chunk ⟨s.ctx, s.existing, []⟩
  set a := chunk.foldl (process_track pid pname true) ⟨s.ctx, s.existing, []⟩ with hadef
  by_cases he : a.chunkIds.isEmpty = true
  · rw [if_pos he]
    exact hfold
  · rw [if_neg he]
    rcases hab : add_tracks_in_batches a.ctx ytid a.chunkIds pname with ⟨added, c2⟩
    have hk := foldl_keeps (fun acc : Nat × Ctx => acc.2.skippedNotFound)
      (add_batch ytid pname) (fun acc b => add_batch_keeps_skipped ytid pname acc b)
      (chunks_of 50 a.chunkIds) (0, a.ctx)
    have heq : add_tracks_in_batches a.ctx ytid a.chunkIds pname =
        (chunks_of 50 a.chunkIds).foldl (add_batch ytid pname) (0, a.ctx) := rfl
    rw [hab] at heq
    rw [← heq] at hk
    exact hk.trans hfold

theorem skipped_process_chunks_force (c : Ctx) (tracks : List STrack)
    (pid ytid pname : String) (existing : List String) :
    (process_tracks_in_chunks c tracks pid ytid pname existing true).2.skippedNotFound =
      c.skippedNotFound := by
  unfold process_tracks_in_chunks
  dsimp only
  exact foldl_keeps (fun x : PassAcc => x.ctx.skippedNotFound)
    (process_chunk pid ytid pname true)
    (fun x ch => skipped_process_chunk_force pid ytid pname x ch)
    (chunks_of 200 tracks) ⟨c, existing, 0⟩

theorem trace_ext_process_chunks (c : Ctx) (tracks : List STrack)
    (pid ytid pname : String) (existing : List String) (force : Bool) :
    ∃ t, (process_tracks_in_chunks c tracks pid ytid pname existing force).2.trace =
      c.trace ++ t := by
  obtain ⟨_, _, _, _, _, tr, htr⟩ := frameT_pass c tracks pid ytid pname existing force
  unfold process_tracks_in_chunks
  dsimp only
  set s := (chunks_of 200 tracks).foldl (process_chunk pid ytid pname force)
    (⟨c, existing, 0⟩ : PassAcc) with hs
  refine ⟨tr ++ [Ev.saveEv { s.ctx.state with
    completed := s.ctx.state.completed.addC pid }], ?_⟩
  show s.ctx.trace ++ _ = _
  rw [htr, List.append_assoc]

/-- Trace extension: the second context's trace extends the first's. -/
def ctx_ext (c c2 : Ctx) : Prop := ∃ t, c2.trace = c.trace ++ t

theorem ctx_ext_trans {a b c : Ctx} (h1 : ctx_ext a b) (h2 : ctx_ext b c) : ctx_ext a c := by
  obtain ⟨t1, h1⟩ := h1
  obtain ⟨t2, h2⟩ := h2
  exact ⟨t1 ++ t2, by rw [h2, h1, List.append_assoc]⟩

theorem migrate_tail_ext_skipped (c : Ctx) (pid ytid pname : String) (tracks : List STrack) :
    ctx_ext c (migrate_tail c pid ytid pname tracks true).2 ∧
    (migrate_tail c pid ytid pname tracks true).2.skippedNotFound = c.skippedNotFound := by
  have hgf := yt_get_playlist_tracks_fields
    (Ctx.saveSt { c with state := c.state.set_youtube_playlist_id pid ytid pname }) ytid
  constructor
  · refine ctx_ext_trans (b := (yt_get_playlist_tracks
      (Ctx.saveSt { c with state := c.state.set_youtube_playlist_id pid ytid pname })
      ytid).2) ?_ ?_
    · refine ⟨[Ev.saveEv (c.state.set_youtube_playlist_id pid ytid pname),
        Ev.getPlaylistCall ytid], ?_⟩
      rw [hgf.2.2.2.2.2.2.2.2]
      simp [Ctx.saveSt]
    · obtain ⟨t4, ht4⟩ := trace_ext_process_chunks
        { (yt_get_playlist_tracks
            (Ctx.saveSt { c with state := c.state.set_youtube_playlist_id pid ytid pname })
            ytid).2 with
          summary := { (yt_get_playlist_tracks
            (Ctx.saveSt { c with state := c.state.set_youtube_playlist_id pid ytid pname })
            ytid).2.summary with
            tracks_found := (yt_get_playlist_tracks
              (Ctx.saveSt { c with state := c.state.set_youtube_playlist_id pid ytid pname })
              ytid).2.summary.tracks_found + tracks.length } }
        tracks pid ytid pname
        (set_of_list (((yt_get_playlist_tracks
            (Ctx.saveSt { c with state := c.state.set_youtube_playlist_id pid ytid pname })
            ytid).1.filter (fun t => t.videoId ≠ "")).map PTrack.videoId)) true
      exact ⟨t4, ht4⟩
  · have h1 := skipped_process_chunks_force
      { (yt_get_playlist_tracks
          (Ctx.saveSt { c with state := c.state.set_youtube_playlist_id pid ytid pname })
          ytid).2 with
        summary := { (yt_get_playlist_tracks
          (Ctx.saveSt { c with state := c.state.set_youtube_playlist_id pid ytid pname })
          ytid).2.summary with
          tracks_found := (yt_get_playlist_tracks
            (Ctx.saveSt { c with state := c.state.set_youtube_playlist_id pid ytid pname })
            ytid).2.summary.tracks_found + tracks.length } }
      tracks pid ytid pname
      (set_of_list (((yt_get_playlist_tracks
          (Ctx.saveSt { c with state := c.state.set_youtube_playlist_id pid ytid pname })
          ytid).1.filter (fun t => t.videoId ≠ "")).map PTrack.videoId))
    exact h1.trans hgf.2.2.2.2.2.1

theorem migrate_after_lookup_ext_skipped (c : Ctx) (eid : Option String)
    (pid pname : String) (tracks : List STrack) (il : Bool) :
    ctx_ext c (migrate_after_lookup c eid pid pname tracks il true).2 ∧
    (migrate_after_lookup c eid pid pname tracks il true).2.skippedNotFound =
      c.skippedNotFound := by
  unfold migrate_after_lookup
  cases ht : truthyS eid with
  | some ytid =>
    have hgf := yt_get_playlist_tracks_fields c ytid
    obtain ⟨hext, hskip⟩ := migrate_tail_ext_skipped
      (yt_get_playlist_tracks c ytid).2 pid ytid pname tracks
    constructor
    · exact ctx_ext_trans (b := (yt_get_playlist_tracks c ytid).2)
        ⟨[Ev.getPlaylistCall ytid], hgf.2.2.2.2.2.2.2.2⟩ hext
    · exact hskip.trans hgf.2.2.2.2.2.1
  | none =>
    dsimp only
    rcases hcr : yt_create_playlist c pname (("Migrated from Spotify ") ++
        (if il then ("Liked Songs") else ("playlist"))) with ⟨created, c2⟩
    have hcf := yt_create_playlist_fields c pname (("Migrated from Spotify ") ++
      (if il then ("Liked Songs") else ("playlist")))
    rw [hcr] at hcf
    dsimp only
    cases hc : truthyS created with
    | none =>
      exact ⟨hcf.2.2.2.2.2.2, hcf.2.2.2.2.1⟩
    | some ytid =>
      have hgf := yt_get_playlist_tracks_fields c2 ytid
      obtain ⟨hext, hskip⟩ := migrate_tail_ext_skipped
        { (yt_get_playlist_tracks c2 ytid).2 with
          summary := { (yt_get_playlist_tracks c2 ytid).2.summary with
            playlists_created :=
              (yt_get_playlist_tracks c2 ytid).2.summary.playlists_created + 1 } }
        pid ytid pname tracks
      constructor
      · refine ctx_ext_trans (b := c2) hcf.2.2.2.2.2.2 ?_
        refine ctx_ext_trans (b := (yt_get_playlist_tracks c2 ytid).2)
          ⟨[Ev.getPlaylistCall ytid], hgf.2.2.2.2.2.2.2.2⟩ ?_
        exact hext
      · exact (hskip.trans hgf.2.2.2.2.2.1).trans hcf.2.2.2.2.1

theorem lookup_then_after_ext_skipped (cc : Ctx) (pid pname : String)
    (tracks : List STrack) (il : Bool) :
    ctx_ext cc (match yt_playlist_exists cc pname with
      | (eid, c) => migrate_after_lookup c eid pid pname tracks il true).2 ∧
    (match yt_playlist_exists cc pname with
      | (eid, c) => migrate_after_lookup c eid pid pname tracks il true).2.skippedNotFound =
      cc.skippedNotFound := by
  rcases hpe : yt_playlist_exists cc pname with ⟨eid, c2⟩
  have hf := yt_playlist_exists_fields cc pname
  rw [hpe] at hf
  obtain ⟨hext2, hskip2⟩ := migrate_after_lookup_ext_skipped c2 eid pid pname tracks il
  constructor
  · exact ctx_ext_trans (b := c2) hf.2.2.2.2.2.2.2 hext2
  · exact hskip2.trans hf.2.2.2.2.2.1

/-- C5: for a previously completed playlist, calling migrate_playlist with
force_reprocess true removes the playlist's mapping entry, its completion
flag and every persisted track resolution whose key's playlist component
matches, and persists that cleared state as the very first event of the run
— before any search, lookup or insertion work; and during the subsequent
pass no track is skipped because of a previously cached NotFound resolution
(the skipped counter does not move).  The completion-flag removal relies on
the loaded completion collection being duplicate-free, which every state
written by save_state is. -/
theorem c5_force_reprocess_clears (c : Ctx) (sp : SPlaylist) (tracks : List STrack)
    (il : Bool) (hwf : completed_wf c.state.completed)
    (hcomp : c.state.is_playlist_completed sp.id = true) :
    ∃ s1 rest,
      (migrate_playlist c sp tracks il true).2.trace = c.trace ++ Ev.saveEv s1 :: rest ∧
      alookup s1.playlists sp.id = none ∧
      s1.completed.has sp.id = false ∧
      (∀ tid, alookup s1.tracks (track_key sp.id tid) = none) ∧
      (migrate_playlist c sp tracks il true).2.skippedNotFound = c.skippedNotFound := by
  unfold migrate_playlist
  dsimp only
  rw [show (true && c.state.is_playlist_completed sp.id) = true from by rw [hcomp]; rfl]
  obtain ⟨hext, hskip⟩ := lookup_then_after_ext_skipped
    (Ctx.saveSt (force_clear { c with state := { c.state with
      completed := c.state.completed.removeC sp.id } } sp.id))
    sp.id (if il then ("Liked Songs - Spot") else ("Spot ") ++ sp.name) tracks il
  obtain ⟨t3, ht3⟩ := hext
  refine ⟨(force_clear { c with state := { c.state with
      completed := c.state.completed.removeC sp.id } } sp.id).state, t3, ?_, ?_, ?_, ?_, ?_⟩
  · refine ht3.trans ?_
    show (c.trace ++ [Ev.saveEv (force_clear { c with state := { c.state with
      completed := c.state.completed.removeC sp.id } } sp.id).state]) ++ t3 = _
    simp
  · exact alookup_filter_key _ (fun x => decide (x ≠ sp.id)) _ (by simp)
  · exact removeC_has_false _ sp.id (removeC_wf _ sp.id hwf)
  · intro tid
    exact alookup_filter_key _ (fun k => !(py_startswith k (sp.id ++ ":"))) _
      (by simp [py_startswith_track_key])
  · exact hskip

/-- Oracle for the C5 witness: everything succeeds. -/
def c5Api : YTApi :=
  { searchR := fun _ _ => Except.ok [],
    addR := fun _ _ _ => none,
    getR := fun _ _ => none,
    libR := fun _ => Except.ok [],
    createR := fun _ _ => Except.ok ("y2"),
    accR := fun _ => none }

/-- A context in which playlist p1 is completed, mapped, and has a cached
not_found resolution. -/
def c5ctx : Ctx :=
  mkCtx c5Api []
    ⟨[(("p1"), ⟨"y1", "Spot P"⟩)], [(("p1:t1"), ⟨"not_found", none, 0⟩)], .cset [("p1")]⟩

/-- C5 witness: the clearing theorem applied to the concrete completed
playlist p1. -/
theorem c5_force_reprocess_clears_witness :
    completed_wf c5ctx.state.completed ∧
    c5ctx.state.is_playlist_completed ("p1") = true ∧
    ∃ s1 rest,
      (migrate_playlist c5ctx ⟨"p1", "P", "Me", some 1, true⟩ [⟨"t1", "S", ["A"], "B"⟩]
        false true).2.trace = c5ctx.trace ++ Ev.saveEv s1 :: rest ∧
      alookup s1.playlists (SPlaylist.id ⟨"p1", "P", "Me", some 1, true⟩) = none ∧
      s1.completed.has (SPlaylist.id ⟨"p1", "P", "Me", some 1, true⟩) = false ∧
      (∀ tid, alookup s1.tracks
        (track_key (SPlaylist.id ⟨"p1", "P", "Me", some 1, true⟩) tid) = none) ∧
      (migrate_playlist c5ctx ⟨"p1", "P", "Me", some 1, true⟩ [⟨"t1", "S", ["A"], "B"⟩]
        false true).2.skippedNotFound = c5ctx.skippedNotFound :=
  ⟨trivial, by decide,
   c5_force_reprocess_clears c5ctx ⟨"p1", "P", "Me", some 1, true⟩
     [⟨"t1", "S", ["A"], "B"⟩] false trivial (by decide)⟩

/- ===== Part 11: C3 amended — idempotence when the first run's adds
   succeed. ===== -/

/-- The (truthy) destination track ids currently in a destination
playlist. -/
def dids (d : List (String × List Candidate)) (ytid : String) : List String :=
  (extract_tracks (dest_get d ytid)).map PTrack.videoId

theorem extract_vid_ne (ts : List Candidate) : ∀ p ∈ extract_tracks ts, p.videoId ≠ ("") := by
  intro p hp
  unfold extract_tracks at hp
  rcases List.mem_map.mp hp with ⟨t, ht, hpt⟩
  rcases List.mem_filter.mp ht with ⟨_, htr⟩
  cases hv : t.videoId with
  | none => rw [hv] at htr; simp [truthyS] at htr
  | some v =>
    rw [hv] at htr
    by_cases hve : v = ""
    · simp [truthyS, hve] at htr
    · rw [← hpt]
      simpa [hv] using hve

theorem filter_vid_eq (ts : List Candidate) :
    (extract_tracks ts).filter (fun t => t.videoId ≠ ("")) = extract_tracks ts := by
  apply List.filter_eq_self.mpr
  intro p hp
  simpa using extract_vid_ne ts p hp

theorem extract_vid_cands (vs : List String) :
    extract_tracks (vs.map (fun v => ({ videoId := some v } : Candidate))) =
      (vs.filter (fun v => !(v == ""))).map (fun v => (⟨v, "", []⟩ : PTrack)) := by
  induction vs with
  | nil => rfl
  | cons v vs ih =>
    by_cases hv : v = "" <;>
      simpa [extract_tracks, truthyS, hv, List.filter_cons] using ih

theorem dids_dest_add (d : List (String × List Candidate)) (ytid : String) (vs : List String) :
    dids (dest_add d ytid vs) ytid = dids d ytid ++ vs.filter (fun v => !(v == "")) := by
  unfold dids dest_add dest_get
  rw [alookup_aset, if_pos rfl]
  simp only [Option.getD_some]
  rw [show extract_tracks ((alookup d ytid).getD [] ++
        vs.map (fun v => ({ videoId := some v } : Candidate))) =
      extract_tracks ((alookup d ytid).getD []) ++
        extract_tracks (vs.map (fun v => ({ videoId := some v } : Candidate))) from by
    simp [extract_tracks, List.filter_append]]
  rw [List.map_append, extract_vid_cands]
  congr 1
  rw [List.map_map]
  show List.map id _ = _
  exact List.map_id _

theorem mem_dids_add {d : List (String × List Candidate)} {ytid : String} {vs : List String}
    {w : String} :
    w ∈ dids (dest_add d ytid vs) ytid ↔ w ∈ dids d ytid ∨ (w ∈ vs ∧ w ≠ ("")) := by
  rw [dids_dest_add]
  simp [List.mem_filter, List.mem_append]

/-- Goodness of the resolutions recorded for the already-processed tracks:
each has an entry that is either not_found or a truthy Found id that is in
the dedup set, the pending chunk buffer, or the destination playlist. -/
def c3_good (pid ytid : String) (done : List STrack) (a : ChunkAcc) : Prop :=
  ∀ t ∈ done, ∃ e, a.ctx.state.get_track_status t.id pid = some e ∧
    (e.status = ("not_found") ∨ (e.status = ("found") ∧ ∃ v,
      truthyS e.youtube_video_id = some v ∧
      (v ∈ a.existing ∨ v ∈ a.chunkIds ∨ v ∈ dids a.ctx.dest ytid)))

/-- The full per-track invariant of the idempotence argument. -/
def c3_inv (pid ytid : String) (api0 : YTApi) (done : List STrack) (a : ChunkAcc) : Prop :=
  a.ctx.api = api0 ∧
  (∀ v ∈ a.existing, v ∈ a.chunkIds ∨ v ∈ dids a.ctx.dest ytid) ∧
  (∀ v ∈ a.chunkIds, v ≠ ("")) ∧
  c3_good pid ytid done a

theorem c3_inv_search_phase (pid ytid pname : String) (api0 : YTApi) (done : List STrack)
    (a : ChunkAcc) (t : STrack) (h : c3_inv pid ytid api0 done a) :
    c3_inv pid ytid api0 (done ++ [t]) (search_phase pid pname a t) := by
  obtain ⟨hapi, hex, hch, hgood⟩ := h
  unfold search_phase
  rcases hmc : yt_search_track a.ctx t.name (String.intercalate ", " t.artists) (some t.album)
    with ⟨m, c2⟩
  have hfields := yt_search_track_fields a.ctx t.name (String.intercalate ", " t.artists)
    (some t.album)
  rw [hmc] at hfields
  dsimp only at hfields
  obtain ⟨hfapi, hfdest, hfstate, _, hfstaged, _, _, _, _⟩ := hfields
  cases m with
  | none =>
    refine ⟨by simp [Ctx.mark, hfapi, hapi], ?_, hch, ?_⟩
    · intro v hv
      simp only [Ctx.mark, hfdest]
      exact hex v hv
    · intro u hu
      rcases List.mem_append.mp hu with hu | hu
      · obtain ⟨e, he, hgd⟩ := hgood u hu
        simp only [Ctx.mark, hfstate, hfdest]
        rw [get_track_status_mark]
        split
        · exact ⟨⟨("not_found"), none, c2.now⟩, rfl, Or.inl rfl⟩
        · exact ⟨e, he, hgd⟩
      · rcases List.mem_singleton.mp hu with rfl
        simp only [Ctx.mark, hfstate, hfdest]
        rw [get_track_status_mark]
        split
        · exact ⟨⟨("not_found"), none, c2.now⟩, rfl, Or.inl rfl⟩
        · rename_i hne
          exact absurd rfl hne
  | some yt =>
    have hvne : yt.videoId ≠ "" :=
      @yt_search_hit_ne a.ctx t.name (String.intercalate ", " t.artists)
        (some t.album) yt (by rw [hmc])
    by_cases hv : yt.videoId ∈ a.existing
    · simp only [hv, if_true]
      refine ⟨by simp [Ctx.mark, hfapi, hapi], ?_, hch, ?_⟩
      · intro v hvv
        simp only [Ctx.mark, hfdest]
        exact hex v hvv
      · intro u hu
        rcases List.mem_append.mp hu with hu | hu
        · obtain ⟨e, he, hgd⟩ := hgood u hu
          simp only [Ctx.mark, hfstate, hfdest]
          rw [get_track_status_mark]
          split
          · refine ⟨⟨("found"), some yt.videoId, c2.now⟩, rfl, Or.inr ⟨rfl, yt.videoId, ?_, Or.inl hv⟩⟩
            simp [truthyS, hvne]
          · exact ⟨e, he, hgd⟩
        · rcases List.mem_singleton.mp hu with rfl
          simp only [Ctx.mark, hfstate, hfdest]
          rw [get_track_status_mark]
          split
          · refine ⟨⟨("found"), some yt.videoId, c2.now⟩, rfl, Or.inr ⟨rfl, yt.videoId, ?_, Or.inl hv⟩⟩
            simp [truthyS, hvne]
          · rename_i hne
            exact absurd rfl hne
    · simp only [hv, if_false]
      refine ⟨by simp [Ctx.mark, Ctx.stage, hfapi, hapi], ?_, ?_, ?_⟩
      · intro v hvv
        simp only [Ctx.mark, Ctx.stage, hfdest]
        rcases mem_of_mem_insert_set hvv with hvv | hvv
        · rcases hex v hvv with hc | hc
          · exact Or.inl (List.mem_append.mpr (Or.inl hc))
          · exact Or.inr hc
        · exact Or.inl (List.mem_append.mpr (Or.inr (by simp [hvv])))
      · intro v hvv
        rcases List.mem_append.mp hvv with hvv | hvv
        · exact hch v hvv
        · rcases List.mem_singleton.mp hvv with rfl
          exact hvne
      · intro u hu
        rcases List.mem_append.mp hu with hu | hu
        · obtain ⟨e, he, hgd⟩ := hgood u hu
          simp only [Ctx.mark, Ctx.stage, hfstate, hfdest]
          rw [get_track_status_mark]
          split
          · refine ⟨⟨("found"), some yt.videoId, c2.now⟩, rfl,
              Or.inr ⟨rfl, yt.videoId, by simp [truthyS, hvne], Or.inl (mem_insert_set_self _ _)⟩⟩
          · refine ⟨e, he, ?_⟩
            rcases hgd with hgd | ⟨hst, v, hvv, hmem⟩
            · exact Or.inl hgd
            · refine Or.inr ⟨hst, v, hvv, ?_⟩
              rcases hmem with hm | hm | hm
              · exact Or.inl (mem_insert_set_of_mem _ hm)
              · exact Or.inr (Or.inl (List.mem_append.mpr (Or.inl hm)))
              · exact Or.inr (Or.inr hm)
        · rcases List.mem_singleton.mp hu with rfl
          simp only [Ctx.mark, Ctx.stage, hfstate, hfdest]
          rw [get_track_status_mark]
          split
          · refine ⟨⟨("found"), some yt.videoId, c2.now⟩, rfl,
              Or.inr ⟨rfl, yt.videoId, by simp [truthyS, hvne], Or.inl (mem_insert_set_self _ _)⟩⟩
          · rename_i hne
            exact absurd rfl hne

theorem c3_inv_process_track (pid ytid pname : String) (force : Bool) (api0 : YTApi)
    (done : List STrack) (a : ChunkAcc) (t : STrack) (h : c3_inv pid ytid api0 done a) :
    c3_inv pid ytid api0 (done ++ [t]) (process_track pid pname force a t) := by
  obtain ⟨hapi, hex, hch, hgood⟩ := h
  unfold process_track
  cases he : a.ctx.state.get_track_status t.id pid with
  | none => exact c3_inv_search_phase pid ytid pname api0 done a t ⟨hapi, hex, hch, hgood⟩
  | some e =>
    by_cases h1 : force = false ∧ e.status = ("found")
    · simp only [h1, if_true]
      cases ht : truthyS e.youtube_video_id with
      | some v =>
        have hvne : v ≠ "" := (truthyS_eq_some.mp ht).2
        by_cases hv : v ∈ a.existing
        · simp only [hv, if_true]
          refine ⟨hapi, hex, hch, ?_⟩
          intro u hu
          rcases List.mem_append.mp hu with hu | hu
          · exact hgood u hu
          · rcases List.mem_singleton.mp hu with rfl
            exact ⟨e, he, Or.inr ⟨h1.2, v, ht, Or.inl hv⟩⟩
        · simp only [hv, if_false]
          refine ⟨hapi, ?_, ?_, ?_⟩
          · intro w hw
            rcases hex w hw with hc | hc
            · exact Or.inl (List.mem_append.mpr (Or.inl hc))
            · exact Or.inr hc
          · intro w hw
            rcases List.mem_append.mp hw with hw | hw
            · exact hch w hw
            · rcases List.mem_singleton.mp hw with rfl
              exact hvne
          · intro u hu
            rcases List.mem_append.mp hu with hu | hu
            · obtain ⟨e2, he2, hgd⟩ := hgood u hu
              refine ⟨e2, he2, ?_⟩
              rcases hgd with hgd | ⟨hst, w, hwv, hmem⟩
              · exact Or.inl hgd
              · refine Or.inr ⟨hst, w, hwv, ?_⟩
                rcases hmem with hm | hm | hm
                · exact Or.inl hm
                · exact Or.inr (Or.inl (List.mem_append.mpr (Or.inl hm)))
                · exact Or.inr (Or.inr hm)
            · rcases List.mem_singleton.mp hu with rfl
              exact ⟨e, he, Or.inr ⟨h1.2, v, ht,
                Or.inr (Or.inl (List.mem_append.mpr (Or.inr (by simp))))⟩⟩
      | none => exact c3_inv_search_phase pid ytid pname api0 done a t ⟨hapi, hex, hch, hgood⟩
    · simp only [h1, if_false]
      by_cases h2 : force = false ∧ e.status = ("not_found")
      · simp only [h2, if_true]
        refine ⟨hapi, hex, hch, ?_⟩
        intro u hu
        rcases List.mem_append.mp hu with hu | hu
        · exact hgood u hu
        · rcases List.mem_singleton.mp hu with rfl
          exact ⟨e, he, Or.inl h2.2⟩
      · simp only [h2, if_false]
        exact c3_inv_search_phase pid ytid pname api0 done a t ⟨hapi, hex, hch, hgood⟩

theorem c3_inv_fold_track (pid ytid pname : String) (force : Bool) (api0 : YTApi) :
    ∀ (chunk : List STrack) (done : List STrack) (a : ChunkAcc),
      c3_inv pid ytid api0 done a →
      c3_inv pid ytid api0 (done ++ chunk) (chunk.foldl (process_track pid pname force) a) := by
  intro chunk
  induction chunk with
  | nil =>
    intro done a h
    rw [List.append_nil]
    exact h
  | cons t chunk ih =>
    intro done a h
    have h2 := ih (done ++ [t]) _ (c3_inv_process_track pid ytid pname force api0 done a t h)
    rw [show done ++ t :: chunk = (done ++ [t]) ++ chunk from by simp]
    exact h2

/-- Transport of the c3 invariant across a context agreeing on the fields
the invariant reads. -/
theorem c3_inv_transport (pid ytid : String) (api0 : YTApi) (done : List STrack)
    (c1 c2 : Ctx) (ex ch : List String)
    (hapi : c2.api = c1.api) (hdest : c2.dest = c1.dest) (hst : c2.state = c1.state)
    (h : c3_inv pid ytid api0 done ⟨c1, ex, ch⟩) :
    c3_inv pid ytid api0 done ⟨c2, ex, ch⟩ := by
  obtain ⟨h1, h2, h3, h4⟩ := h
  refine ⟨hapi.trans h1, ?_, h3, ?_⟩
  · intro v hv
    rw [hdest]
    exact h2 v hv
  · intro t ht
    obtain ⟨e, he, hgd⟩ := h4 t ht
    refine ⟨e, ?_, ?_⟩
    · rw [hst]; exact he
    · rcases hgd with hgd | ⟨hs, v, hv, hm⟩
      · exact Or.inl hgd
      · refine Or.inr ⟨hs, v, hv, ?_⟩
        rw [hdest]
        exact hm

/-- One insertion batch when the adapter accepts every add: the state,
staged log and skip counter stay put and the destination playlist grows by
the batch (its truthy ids). -/
theorem add_batch_all_ok (ytpid pname : String) (n : Nat) (c : Ctx) (batch : List String)
    (hA : ∀ k p v, c.api.addR k p v = none) :
    (add_batch ytpid pname (n, c) batch).2.api = c.api ∧
    (add_batch ytpid pname (n, c) batch).2.state = c.state ∧
    (add_batch ytpid pname (n, c) batch).2.staged = c.staged ∧
    (add_batch ytpid pname (n, c) batch).2.skippedNotFound = c.skippedNotFound ∧
    dids (add_batch ytpid pname (n, c) batch).2.dest ytpid =
      dids c.dest ytpid ++ batch.filter (fun v => !(v == ("")))  := by
  by_cases hb : batch = []
  · subst hb
    unfold add_batch yt_add_songs_to_playlist
    simp
  · unfold add_batch
    dsimp only
    rw [yt_add_songs_ok c ytpid batch hb (hA _ _ _)]
    dsimp only [Ctx.callApi]
    refine ⟨rfl, rfl, rfl, rfl, ?_⟩
    exact dids_dest_add c.dest ytpid batch

/-- The whole batch fold under an always-accepting adapter. -/
theorem add_fold_all_ok (ytpid pname : String) (api0 : YTApi)
    (hA : ∀ k p v, api0.addR k p v = none) :
    ∀ (bs : List (List String)) (n : Nat) (c : Ctx), c.api = api0 →
      (bs.foldl (add_batch ytpid pname) (n, c)).2.api = api0 ∧
      (bs.foldl (add_batch ytpid pname) (n, c)).2.state = c.state ∧
      (bs.foldl (add_batch ytpid pname) (n, c)).2.staged = c.staged ∧
      (bs.foldl (add_batch ytpid pname) (n, c)).2.skippedNotFound = c.skippedNotFound ∧
      dids (bs.foldl (add_batch ytpid pname) (n, c)).2.dest ytpid =
        dids c.dest ytpid ++ bs.flatten.filter (fun v => !(v == (""))) := by
  intro bs
  induction bs with
  | nil => intro n c hc; simpa using hc
  | cons b bs ih =>
    intro n c hc
    rw [List.foldl_cons]
    have hstep := add_batch_all_ok ytpid pname n c b (by rw [hc]; exact hA)
    rcases hr : add_batch ytpid pname (n, c) b with ⟨n1, c1⟩
    rw [hr] at hstep
    dsimp only at hstep
    obtain ⟨s1, s2, s3, s4, s5⟩ := hstep
    have hrec := ih n1 c1 (s1.trans hc)
    refine ⟨hrec.1, hrec.2.1.trans s2, hrec.2.2.1.trans s3, hrec.2.2.2.1.trans s4, ?_⟩
    rw [hrec.2.2.2.2, s5, List.flatten_cons, List.filter_append, List.append_assoc]

/-- _add_tracks_in_batches under an always-accepting adapter: the ids land
in the destination playlist (truthy ones), nothing else observable moves. -/
theorem add_tracks_all_ok (c : Ctx) (ytpid pname : String) (vids : List String)
    (hA : ∀ k p v, c.api.addR k p v = none) :
    (add_tracks_in_batches c ytpid vids pname).2.api = c.api ∧
    (add_tracks_in_batches c ytpid vids pname).2.state = c.state ∧
    (add_tracks_in_batches c ytpid vids pname).2.staged = c.staged ∧
    (add_tracks_in_batches c ytpid vids pname).2.skippedNotFound = c.skippedNotFound ∧
    dids (add_tracks_in_batches c ytpid vids pname).2.dest ytpid =
      dids c.dest ytpid ++ vids.filter (fun v => !(v == (""))) := by
  unfold add_tracks_in_batches
  have h := add_fold_all_ok ytpid pname c.api hA (chunks_of 50 vids) 0 c rfl
  rwa [chunks_of_join 50 (by decide) vids] at h

/-- One 200-track chunk preserves the c3 invariant (with an empty pending
buffer on both sides) when the adapter accepts every add: the flush moves
the chunk buffer into the destination playlist. -/
theorem c3_inv_chunk (pid ytid pname : String) (api0 : YTApi)
    (hA : ∀ k p v, api0.addR k p v = none)
    (done : List STrack) (chunk : List STrack) (s : PassAcc)
    (h : c3_inv pid ytid api0 done ⟨s.ctx, s.existing, []⟩) :
    c3_inv pid ytid api0 (done ++ chunk)
      ⟨(process_chunk pid ytid pname false s chunk).ctx,
       (process_chunk pid ytid pname false s chunk).existing, []⟩ := by
  unfold process_chunk
  dsimp only
  set a := chunk.foldl (process_track pid pname false) ⟨s.ctx, s.existing, []⟩ with hadef
  have hinv : c3_inv pid ytid api0 (done ++ chunk) a :=
    c3_inv_fold_track pid ytid pname false api0 chunk done ⟨s.ctx, s.existing, []⟩ h
  obtain ⟨hapi, hex, hch, hgood⟩ := hinv
  by_cases he : a.chunkIds.isEmpty
  · simp only [he, if_true]
    have hche : a.chunkIds = [] := List.isEmpty_iff.mp he
    refine c3_inv_transport pid ytid api0 (done ++ chunk) a.ctx _ a.existing [] rfl rfl rfl
      ⟨hapi, ?_, (by intro v hv; cases hv), ?_⟩
    · intro v hv
      rcases hex v hv with hv2 | hv2
      · rw [hche] at hv2; cases hv2
      · exact Or.inr hv2
    · intro t ht
      obtain ⟨e, hee, hgd⟩ := hgood t ht
      refine ⟨e, hee, ?_⟩
      rcases hgd with hgd | ⟨hs2, v, hv, hm⟩
      · exact Or.inl hgd
      · refine Or.inr ⟨hs2, v, hv, ?_⟩
        rcases hm with hm | hm | hm
        · exact Or.inl hm
        · rw [hche] at hm; cases hm
        · exact Or.inr (Or.inr hm)
  · simp only [he, if_false]
    have hflush := add_tracks_all_ok a.ctx ytid pname a.chunkIds (by rw [hapi]; exact hA)
    rcases hr : add_tracks_in_batches a.ctx ytid a.chunkIds pname with ⟨added, c2⟩
    rw [hr] at hflush
    dsimp only at hflush ⊢
    obtain ⟨f1, f2, f3, f4, f5⟩ := hflush
    have hfl : a.chunkIds.filter (fun v => !(v == (""))) = a.chunkIds := by
      apply List.filter_eq_self.mpr
      intro v hv
      simpa using hch v hv
    rw [hfl] at f5
    refine c3_inv_transport pid ytid api0 (done ++ chunk) c2 _ a.existing [] rfl rfl rfl
      ⟨f1.trans hapi, ?_, (by intro v hv; cases hv), ?_⟩
    · intro v hv
      refine Or.inr ?_
      rw [f5]
      rcases hex v hv with hv2 | hv2
      · exact List.mem_append.mpr (Or.inr hv2)
      · exact List.mem_append.mpr (Or.inl hv2)
    · intro t ht
      obtain ⟨e, hee, hgd⟩ := hgood t ht
      refine ⟨e, by rw [f2]; exact hee, ?_⟩
      rcases hgd with hgd | ⟨hs2, v, hv, hm⟩
      · exact Or.inl hgd
      · refine Or.inr ⟨hs2, v, hv, ?_⟩
        rcases hm with hm | hm | hm
        · exact Or.inl hm
        · exact Or.inr (Or.inr (by rw [f5]; exact List.mem_append.mpr (Or.inr hm)))
        · exact Or.inr (Or.inr (by rw [f5]; exact List.mem_append.mpr (Or.inl hm)))

/-- The pass-level fold of chunks preserves the invariant (empty pending
buffer between chunks) when the adapter accepts every add. -/
theorem c3_inv_pass (pid ytid pname : String) (api0 : YTApi)
    (hA : ∀ k p v, api0.addR k p v = none) :
    ∀ (cs : List (List STrack)) (done : List STrack) (s : PassAcc),
      c3_inv pid ytid api0 done ⟨s.ctx, s.existing, []⟩ →
      c3_inv pid ytid api0 (done ++ cs.flatten)
        ⟨(cs.foldl (process_chunk pid ytid pname false) s).ctx,
         (cs.foldl (process_chunk pid ytid pname false) s).existing, []⟩ := by
  intro cs
  induction cs with
  | nil => intro done s h; simpa using h
  | cons ck cs ih =>
    intro done s h
    rw [List.foldl_cons]
    have h1 := c3_inv_chunk pid ytid pname api0 hA done ck s h
    have h2 := ih (done ++ ck) (process_chunk pid ytid pname false s ck) h1
    rw [List.flatten_cons, ← List.append_assoc]
    exact h2

/-- Readiness of a state/destination pair for a no-op second pass: every
source track already has a resolution, and every Found resolution's id sits
in the destination playlist. -/
def c3_ready (pid ytid : String) (tracks : List STrack) (st : MState)
    (d : List (String × List Candidate)) : Prop :=
  ∀ t ∈ tracks, ∃ e, st.get_track_status t.id pid = some e ∧
    (e.status = ("not_found") ∨ (e.status = ("found") ∧ ∃ v,
      truthyS e.youtube_video_id = some v ∧ v ∈ dids d ytid))

/-- The chunk phase under an always-accepting adapter, started from a dedup
baseline drawn from the destination playlist: it succeeds, completes the
playlist, and leaves a state/destination pair ready for a no-op repeat. -/
theorem process_chunks_all_ok (c : Ctx) (tracks : List STrack) (pid ytid pname : String)
    (existing : List String)
    (hA : ∀ k p v, c.api.addR k p v = none)
    (hex : ∀ v ∈ existing, v ∈ dids c.dest ytid) :
    (process_tracks_in_chunks c tracks pid ytid pname existing false).1 = true ∧
    (process_tracks_in_chunks c tracks pid ytid pname existing false).2.api = c.api ∧
    (process_tracks_in_chunks c tracks pid ytid pname existing false).2.state.playlists =
      c.state.playlists ∧
    (process_tracks_in_chunks c tracks pid ytid pname
      existing false).2.state.is_playlist_completed pid = true ∧
    c3_ready pid ytid tracks
      (process_tracks_in_chunks c tracks pid ytid pname existing false).2.state
      (process_tracks_in_chunks c tracks pid ytid pname existing false).2.dest := by
  obtain ⟨hfapi, _, _, hfpl, _, _⟩ := frameT_pass c tracks pid ytid pname existing false
  have hinv := c3_inv_pass pid ytid pname c.api hA (chunks_of 200 tracks) [] ⟨c, existing, 0⟩
    ⟨rfl, (by intro v hv; exact Or.inr (hex v hv)), (by intro v hv; cases hv),
     (by intro t ht; cases ht)⟩
  rw [chunks_of_join 200 (by decide) tracks] at hinv
  obtain ⟨hapi, hex2, _, hgood⟩ := hinv
  unfold process_tracks_in_chunks
  set s := (chunks_of 200 tracks).foldl (process_chunk pid ytid pname false)
    ⟨c, existing, 0⟩ with hs
  refine ⟨rfl, hfapi, hfpl, ?_, ?_⟩
  · simp [Ctx.saveSt, MState.is_playlist_completed, has_addC_self]
  · intro t ht
    obtain ⟨e, hee, hgd⟩ := hgood t (by simpa using ht)
    refine ⟨e, ?_, ?_⟩
    · simpa [Ctx.saveSt, MState.get_track_status] using hee
    · rcases hgd with hgd | ⟨hs2, v, hv, hm⟩
      · exact Or.inl hgd
      · refine Or.inr ⟨hs2, v, hv, ?_⟩
        have hm2 : v ∈ dids s.ctx.dest ytid := by
          rcases hm with hm | hm | hm
          · rcases hex2 v hm with h0 | h0
            · cases h0
            · exact h0
          · cases hm
          · exact hm
        simpa [Ctx.saveSt] using hm2

/-- The tail of migrate_playlist under an always-accepting adapter with
reliable destination reads: it returns true, records and keeps the mapping,
completes the playlist and leaves a ready state/destination pair. -/
theorem migrate_tail_run1 (c : Ctx) (pid ytid pname : String) (tracks : List STrack)
    (hA : ∀ k p v, c.api.addR k p v = none)
    (hG : ∀ k p, c.api.getR k p = none) :
    (migrate_tail c pid ytid pname tracks false).1 = true ∧
    (migrate_tail c pid ytid pname tracks false).2.api = c.api ∧
    (migrate_tail c pid ytid pname tracks false).2.state.get_youtube_playlist_id pid =
      some ytid ∧
    (migrate_tail c pid ytid pname tracks false).2.state.is_playlist_completed pid = true ∧
    c3_ready pid ytid tracks (migrate_tail c pid ytid pname tracks false).2.state
      (migrate_tail c pid ytid pname tracks false).2.dest := by
  unfold migrate_tail
  dsimp only
  set c1 := Ctx.saveSt { c with state := c.state.set_youtube_playlist_id pid ytid pname }
    with hc1
  rcases h3 : yt_get_playlist_tracks c1 ytid with ⟨yts, c2⟩
  have hfields := yt_get_playlist_tracks_fields c1 ytid
  rw [h3] at hfields
  dsimp only at hfields
  obtain ⟨gapi, gdest, gstate, _, _, _, _, _, _⟩ := hfields
  have hyts : yts = extract_tracks (dest_get c1.dest ytid) := by
    have h := yt_get_playlist_tracks_ok c1 ytid (hG _ _)
    rw [h3] at h
    exact h
  have hexist : set_of_list ((yts.filter (fun t => t.videoId ≠ (""))).map PTrack.videoId) =
      set_of_list (dids c1.dest ytid) := by
    rw [hyts, filter_vid_eq]
    rfl
  rw [hexist]
  set c3 := { c2 with summary :=
    { c2.summary with tracks_found := c2.summary.tracks_found + tracks.length } } with hc3
  have hc3api : c3.api = c.api := gapi
  have hc3dest : c3.dest = c.dest := gdest
  have hc3state : c3.state = c.state.set_youtube_playlist_id pid ytid pname := gstate
  have hmain := process_chunks_all_ok c3 tracks pid ytid pname
    (set_of_list (dids c1.dest ytid))
    (by rw [hc3api]; exact hA)
    (by
      intro v hv
      rw [hc3dest]
      exact mem_set_of_list.mp hv)
  refine ⟨hmain.1, hmain.2.1.trans hc3api, ?_, hmain.2.2.2.1, hmain.2.2.2.2⟩
  rw [show (process_tracks_in_chunks c3 tracks pid ytid pname
      (set_of_list (dids c1.dest ytid)) false).2.state.get_youtube_playlist_id pid =
      ((alookup (process_tracks_in_chunks c3 tracks pid ytid pname
        (set_of_list (dids c1.dest ytid)) false).2.state.playlists pid).map
        PlaylistEntry.youtube_id) from rfl]
  rw [hmain.2.2.1, hc3state]
  unfold MState.set_youtube_playlist_id
  dsimp only
  rw [alookup_aset, if_pos rfl]
  rfl

/-- create_playlist when the creation call returns an id and the
verification read does not raise: the id is returned, the playlist exists
(kept or created empty) in the destination, and state and api are
untouched. -/
theorem yt_create_playlist_ok (c : Ctx) (title descr : String) (i : String)
    (hC : c.api.createR (c.step + 1) title = Except.ok i)
    (hG : ∀ k p, c.api.getR k p = none) :
    (yt_create_playlist c title descr).1 = some i ∧
    (yt_create_playlist c title descr).2.api = c.api ∧
    (yt_create_playlist c title descr).2.state = c.state ∧
    (yt_create_playlist c title descr).2.dest =
      (if (alookup c.dest i).isSome then c.dest else aset c.dest i []) := by
  unfold yt_create_playlist Ctx.callApi
  dsimp only
  rw [hC]
  dsimp only
  rw [hG]
  exact ⟨rfl, rfl, rfl, rfl⟩

/-- The post-lookup arm of migrate_playlist on a first run with an
always-accepting adapter, reliable destination reads and working creation:
it succeeds, a truthy destination id gets mapped, the playlist completes,
and the state/destination pair is ready for a no-op repeat. -/
theorem migrate_after_run1 (c : Ctx) (eid : Option String) (pid pname : String)
    (tracks : List STrack) (il : Bool)
    (hA : ∀ k p v, c.api.addR k p v = none)
    (hG : ∀ k p, c.api.getR k p = none)
    (hCre : ∀ k t, ∃ i, c.api.createR k t = Except.ok i ∧ i ≠ ("")) :
    (migrate_after_lookup c eid pid pname tracks il false).1 = true ∧
    (migrate_after_lookup c eid pid pname tracks il false).2.api = c.api ∧
    ∃ ytid, ytid ≠ ("") ∧
      (migrate_after_lookup c eid pid pname tracks il
        false).2.state.get_youtube_playlist_id pid = some ytid ∧
      (migrate_after_lookup c eid pid pname tracks il
        false).2.state.is_playlist_completed pid = true ∧
      c3_ready pid ytid tracks
        (migrate_after_lookup c eid pid pname tracks il false).2.state
        (migrate_after_lookup c eid pid pname tracks il false).2.dest := by
  unfold migrate_after_lookup
  cases ht : truthyS eid with
  | some ytid =>
    dsimp only
    simp only [Bool.false_eq_true, if_false]
    have hy : ytid ≠ ("") := (truthyS_eq_some.mp ht).2
    obtain ⟨m1, m2, m3, m4, m5⟩ := migrate_tail_run1 c pid ytid pname tracks hA hG
    exact ⟨m1, m2, ytid, hy, m3, m4, m5⟩
  | none =>
    dsimp only
    obtain ⟨i, hok, hine⟩ := hCre (c.step + 1) pname
    rcases hcr : yt_create_playlist c pname (("Migrated from Spotify ") ++
      (if il then ("Liked Songs") else ("playlist"))) with ⟨created, c2⟩
    have hv := yt_create_playlist_ok c pname (("Migrated from Spotify ") ++
      (if il then ("Liked Songs") else ("playlist"))) i hok hG
    rw [hcr] at hv
    dsimp only at hv
    obtain ⟨hv1, hv2, hv3, _⟩ := hv
    rw [hv1]
    rw [show truthyS (some i) = some i from by simp [truthyS, hine]]
    dsimp only
    rcases hgp : yt_get_playlist_tracks c2 i with ⟨yts2, c3⟩
    have hgf := yt_get_playlist_tracks_fields c2 i
    rw [hgp] at hgf
    dsimp only at hgf
    set c4 := { c3 with summary := { c3.summary with
      playlists_created := c3.summary.playlists_created + 1 } } with hc4
    have hc4api : c4.api = c.api := hgf.1.trans hv2
    obtain ⟨m1, m2, m3, m4, m5⟩ := migrate_tail_run1 c4 pid i pname tracks
      (by rw [hc4api]; exact hA) (by rw [hc4api]; exact hG)
    exact ⟨m1, m2.trans hc4api, i, hine, m3, m4, m5⟩

/-- A first migrate_playlist run (force off) with an always-accepting
adapter, reliable destination reads and working creation: it succeeds, maps
the playlist to a truthy destination id, completes it, and leaves the
state/destination pair ready for a no-op repeat. -/
theorem migrate_run1 (c : Ctx) (sp : SPlaylist) (tracks : List STrack) (il : Bool)
    (hA : ∀ k p v, c.api.addR k p v = none)
    (hG : ∀ k p, c.api.getR k p = none)
    (hCre : ∀ k t, ∃ i, c.api.createR k t = Except.ok i ∧ i ≠ ("")) :
    (migrate_playlist c sp tracks il false).1 = true ∧
    (migrate_playlist c sp tracks il false).2.api = c.api ∧
    ∃ ytid, ytid ≠ ("") ∧
      (migrate_playlist c sp tracks il false).2.state.get_youtube_playlist_id sp.id =
        some ytid ∧
      (migrate_playlist c sp tracks il false).2.state.is_playlist_completed sp.id = true ∧
      c3_ready sp.id ytid tracks (migrate_playlist c sp tracks il false).2.state
        (migrate_playlist c sp tracks il false).2.dest := by
  unfold migrate_playlist
  dsimp only
  simp only [Bool.false_and, Bool.false_eq_true, if_false]
  cases hm : truthyS (c.state.get_youtube_playlist_id sp.id) with
  | some y =>
    dsimp only
    exact migrate_after_run1 c (some y) sp.id
      (if il then ("Liked Songs - Spot") else ("Spot ") ++ sp.name) tracks il hA hG hCre
  | none =>
    dsimp only
    rcases hpe : yt_playlist_exists c
      (if il then ("Liked Songs - Spot") else ("Spot ") ++ sp.name) with ⟨eid, c2⟩
    have hf := yt_playlist_exists_fields c
      (if il then ("Liked Songs - Spot") else ("Spot ") ++ sp.name)
    rw [hpe] at hf
    dsimp only at hf
    obtain ⟨hfapi, _, _, _, _, _, _, _⟩ := hf
    obtain ⟨m1, m2, ytid, hy, m3, m4, m5⟩ := migrate_after_run1 c2 eid sp.id
      (if il then ("Liked Songs - Spot") else ("Spot ") ++ sp.name) tracks il
      (by rw [hfapi]; exact hA) (by rw [hfapi]; exact hG) (by rw [hfapi]; exact hCre)
    exact ⟨m1, m2.trans hfapi, ytid, hy, m3, m4, m5⟩

/-- Observational equality of chunk-loop states up to the skip counter:
nothing except skippedNotFound (and the clock) may move. -/
def noopR (a b : ChunkAcc) : Prop :=
  b.ctx.api = a.ctx.api ∧ b.ctx.dest = a.ctx.dest ∧ b.ctx.state = a.ctx.state ∧
  b.ctx.trace = a.ctx.trace ∧ b.ctx.staged = a.ctx.staged ∧
  b.existing = a.existing ∧ b.chunkIds = a.chunkIds

theorem noopR_refl (a : ChunkAcc) : noopR a a :=
  ⟨rfl, rfl, rfl, rfl, rfl, rfl, rfl⟩

theorem noopR_trans {a b c : ChunkAcc} (h1 : noopR a b) (h2 : noopR b c) : noopR a c :=
  ⟨h2.1.trans h1.1, h2.2.1.trans h1.2.1, h2.2.2.1.trans h1.2.2.1,
   h2.2.2.2.1.trans h1.2.2.2.1, h2.2.2.2.2.1.trans h1.2.2.2.2.1,
   h2.2.2.2.2.2.1.trans h1.2.2.2.2.2.1, h2.2.2.2.2.2.2.trans h1.2.2.2.2.2.2⟩

/-- A track whose cached resolution is not_found, or found with its id
already in the dedup set, is a no-op for the per-track step (only the skip
counter may move). -/
theorem process_track_noop (pid pname : String) (a : ChunkAcc) (t : STrack)
    (h : ∃ e, a.ctx.state.get_track_status t.id pid = some e ∧
      (e.status = ("not_found") ∨ (e.status = ("found") ∧ ∃ v,
        truthyS e.youtube_video_id = some v ∧ v ∈ a.existing))) :
    noopR a (process_track pid pname false a t) := by
  obtain ⟨e, he, hcase⟩ := h
  unfold process_track
  rw [he]
  dsimp only
  rcases hcase with hst | ⟨hst, v, hv, hmem⟩
  · rw [if_neg (fun hcc => absurd (hst ▸ hcc.2) (by decide))]
    rw [if_pos ⟨rfl, hst⟩]
    exact ⟨rfl, rfl, rfl, rfl, rfl, rfl, rfl⟩
  · rw [if_pos ⟨rfl, hst⟩]
    rw [hv]
    dsimp only
    rw [if_pos hmem]
    exact noopR_refl a

/-- A whole chunk of cached-and-landed tracks is a no-op fold. -/
theorem fold_noop (pid pname : String) :
    ∀ (chunk : List STrack) (a : ChunkAcc),
      (∀ t ∈ chunk, ∃ e, a.ctx.state.get_track_status t.id pid = some e ∧
        (e.status = ("not_found") ∨ (e.status = ("found") ∧ ∃ v,
          truthyS e.youtube_video_id = some v ∧ v ∈ a.existing))) →
      noopR a (chunk.foldl (process_track pid pname false) a) := by
  intro chunk
  induction chunk with
  | nil => intro a _; exact noopR_refl a
  | cons t chunk ih =>
    intro a h
    rw [List.foldl_cons]
    have h1 := process_track_noop pid pname a t (h t (by simp))
    refine noopR_trans h1 (ih _ ?_)
    intro u hu
    obtain ⟨e, he, hgd⟩ := h u (by simp [hu])
    refine ⟨e, by rw [h1.2.2.1]; exact he, ?_⟩
    rcases hgd with hgd | ⟨hs, v, hv, hm⟩
    · exact Or.inl hgd
    · exact Or.inr ⟨hs, v, hv, by rw [h1.2.2.2.2.2.1]; exact hm⟩

/-- A 200-track chunk of cached-and-landed tracks does nothing but save:
no insertion is submitted and only one save event is appended. -/
theorem chunk_noop (pid ytid pname : String) (s : PassAcc) (chunk : List STrack)
    (h : ∀ t ∈ chunk, ∃ e, s.ctx.state.get_track_status t.id pid = some e ∧
      (e.status = ("not_found") ∨ (e.status = ("found") ∧ ∃ v,
        truthyS e.youtube_video_id = some v ∧ v ∈ s.existing))) :
    (process_chunk pid ytid pname false s chunk).ctx.api = s.ctx.api ∧
    (process_chunk pid ytid pname false s chunk).ctx.dest = s.ctx.dest ∧
    (process_chunk pid ytid pname false s chunk).ctx.state = s.ctx.state ∧
    (process_chunk pid ytid pname false s chunk).ctx.staged = s.ctx.staged ∧
    (process_chunk pid ytid pname false s chunk).ctx.trace =
      s.ctx.trace ++ [Ev.saveEv s.ctx.state] ∧
    (process_chunk pid ytid pname false s chunk).existing = s.existing := by
  unfold process_chunk
  dsimp only
  set a := chunk.foldl (process_track pid pname false) ⟨s.ctx, s.existing, []⟩ with hadef
  have hn : noopR ⟨s.ctx, s.existing, []⟩ a := fold_noop pid pname chunk ⟨s.ctx, s.existing, []⟩ h
  obtain ⟨n1, n2, n3, n4, n5, n6, n7⟩ := hn
  have hche : a.chunkIds.isEmpty = true := by rw [n7]; rfl
  rw [if_pos hche]
  dsimp only [Ctx.saveSt]
  exact ⟨n1, n2, n3, n5, by rw [n4, n3], n6⟩

/-- A whole pass over cached-and-landed tracks: the context is unchanged up
to trace growth, and the appended trace contains no insertion submission. -/
theorem pass_noop (pid ytid pname : String) :
    ∀ (cs : List (List STrack)) (s : PassAcc),
      (∀ t ∈ cs.flatten, ∃ e, s.ctx.state.get_track_status t.id pid = some e ∧
        (e.status = ("not_found") ∨ (e.status = ("found") ∧ ∃ v,
          truthyS e.youtube_video_id = some v ∧ v ∈ s.existing))) →
      (cs.foldl (process_chunk pid ytid pname false) s).ctx.api = s.ctx.api ∧
      (cs.foldl (process_chunk pid ytid pname false) s).ctx.dest = s.ctx.dest ∧
      (cs.foldl (process_chunk pid ytid pname false) s).ctx.state = s.ctx.state ∧
      (cs.foldl (process_chunk pid ytid pname false) s).ctx.staged = s.ctx.staged ∧
      (cs.foldl (process_chunk pid ytid pname false) s).existing = s.existing ∧
      ∃ tr, (cs.foldl (process_chunk pid ytid pname false) s).ctx.trace =
        s.ctx.trace ++ tr ∧ tr.countP is_add_call = 0 := by
  intro cs
  induction cs with
  | nil =>
    intro s _
    exact ⟨rfl, rfl, rfl, rfl, rfl, [], by simp, rfl⟩
  | cons ck cs ih =>
    intro s h
    rw [List.foldl_cons]
    obtain ⟨k1, k2, k3, k4, k5, k6⟩ := chunk_noop pid ytid pname s ck
      (fun t ht => h t (by rw [List.flatten_cons]; exact List.mem_append.mpr (Or.inl ht)))
    obtain ⟨r1, r2, r3, r4, r5, tr, htr, hcnt⟩ := ih (process_chunk pid ytid pname false s ck)
      (by
        intro t ht
        obtain ⟨e, he, hgd⟩ := h t (by
          rw [List.flatten_cons]
          exact List.mem_append.mpr (Or.inr ht))
        refine ⟨e, by rw [k3]; exact he, ?_⟩
        rcases hgd with hgd | ⟨hs, v, hv, hm⟩
        · exact Or.inl hgd
        · exact Or.inr ⟨hs, v, hv, by rw [k6]; exact hm⟩)
    refine ⟨r1.trans k1, r2.trans k2, r3.trans k3, r4.trans k4, r5.trans k6,
      [Ev.saveEv s.ctx.state] ++ tr, ?_, ?_⟩
    · rw [htr, k5, List.append_assoc]
    · rw [List.countP_append, hcnt]
      rfl

/-- The chunk phase on a ready state: it succeeds and completes the
playlist without staging any id or submitting any insertion. -/
theorem process_chunks_noop (c : Ctx) (tracks : List STrack) (pid ytid pname : String)
    (existing : List String)
    (h : ∀ t ∈ tracks, ∃ e, c.state.get_track_status t.id pid = some e ∧
      (e.status = ("not_found") ∨ (e.status = ("found") ∧ ∃ v,
        truthyS e.youtube_video_id = some v ∧ v ∈ existing))) :
    (process_tracks_in_chunks c tracks pid ytid pname existing false).1 = true ∧
    (process_tracks_in_chunks c tracks pid ytid pname existing false).2.staged = c.staged ∧
    (process_tracks_in_chunks c tracks pid ytid pname
      existing false).2.state.is_playlist_completed pid = true ∧
    ∃ tr, (process_tracks_in_chunks c tracks pid ytid pname existing false).2.trace =
      c.trace ++ tr ∧ tr.countP is_add_call = 0 := by
  have hp := pass_noop pid ytid pname (chunks_of 200 tracks) ⟨c, existing, 0⟩
    (by
      intro t ht
      rw [chunks_of_join 200 (by decide) tracks] at ht
      exact h t ht)
  obtain ⟨p1, p2, p3, p4, p5, tr, htr, hcnt⟩ := hp
  unfold process_tracks_in_chunks
  set s := (chunks_of 200 tracks).foldl (process_chunk pid ytid pname false)
    ⟨c, existing, 0⟩ with hs
  refine ⟨rfl, ?_, ?_, tr ++ [Ev.saveEv
    { s.ctx.state with completed := s.ctx.state.completed.addC pid }], ?_, ?_⟩
  · simpa [Ctx.saveSt] using p4
  · simp [Ctx.saveSt, MState.is_playlist_completed, has_addC_self]
  · simp only [Ctx.saveSt]
    rw [htr, List.append_assoc]
  · rw [List.countP_append, hcnt]
    rfl

/-- A second migrate_playlist run (force off) on a mapped, ready
state/destination pair with reliable destination reads: it succeeds and
completes the playlist without staging any id and without submitting any
insertion batch. -/
theorem migrate_run2 (c : Ctx) (sp : SPlaylist) (tracks : List STrack) (il : Bool)
    (ytid : String) (hy : ytid ≠ (""))
    (hmap : c.state.get_youtube_playlist_id sp.id = some ytid)
    (hG : ∀ k p, c.api.getR k p = none)
    (hready : c3_ready sp.id ytid tracks c.state c.dest) :
    (migrate_playlist c sp tracks il false).1 = true ∧
    (migrate_playlist c sp tracks il false).2.staged = c.staged ∧
    (migrate_playlist c sp tracks il false).2.state.is_playlist_completed sp.id = true ∧
    ∃ tr, (migrate_playlist c sp tracks il false).2.trace = c.trace ++ tr ∧
      tr.countP is_add_call = 0 := by
  unfold migrate_playlist
  dsimp only
  set pn := (if il then ("Liked Songs - Spot") else ("Spot ") ++ sp.name) with hpn
  simp only [Bool.false_and, Bool.false_eq_true, if_false]
  rw [hmap]
  rw [show truthyS (some ytid) = some ytid from by simp [truthyS, hy]]
  dsimp only
  unfold migrate_after_lookup
  rw [show truthyS (some ytid) = some ytid from by simp [truthyS, hy]]
  dsimp only
  simp only [Bool.false_eq_true, if_false]
  unfold migrate_tail
  dsimp only
  set c1 := Ctx.saveSt { c with state := c.state.set_youtube_playlist_id sp.id ytid pn }
    with hc1
  rcases h3 : yt_get_playlist_tracks c1 ytid with ⟨yts, c2⟩
  have hfields := yt_get_playlist_tracks_fields c1 ytid
  rw [h3] at hfields
  dsimp only at hfields
  obtain ⟨gapi, gdest, gstate, _, gstaged, _, _, _, gtrace⟩ := hfields
  have hyts : yts = extract_tracks (dest_get c1.dest ytid) := by
    have h := yt_get_playlist_tracks_ok c1 ytid (hG _ _)
    rw [h3] at h
    exact h
  have hexist : set_of_list ((yts.filter (fun t => t.videoId ≠ (""))).map PTrack.videoId) =
      set_of_list (dids c1.dest ytid) := by
    rw [hyts, filter_vid_eq]
    rfl
  rw [hexist]
  set c4 := { c2 with summary :=
    { c2.summary with tracks_found := c2.summary.tracks_found + tracks.length } } with hc4
  obtain ⟨q1, q2, q3, tr2, htr2, hcnt2⟩ := process_chunks_noop c4 tracks sp.id ytid pn
    (set_of_list (dids c1.dest ytid))
    (by
      intro t ht
      obtain ⟨e, he, hgd⟩ := hready t ht
      refine ⟨e, ?_, ?_⟩
      · show c2.state.get_track_status t.id sp.id = some e
        rw [gstate]
        exact he
      · rcases hgd with hgd | ⟨hs, v, hv, hm⟩
        · exact Or.inl hgd
        · exact Or.inr ⟨hs, v, hv, mem_set_of_list.mpr hm⟩)
  refine ⟨q1, ?_, q3, ?_⟩
  · refine q2.trans ?_
    show c2.staged = c.staged
    exact gstaged
  · refine ⟨[Ev.saveEv (c.state.set_youtube_playlist_id sp.id ytid
      (if il then ("Liked Songs - Spot") else ("Spot ") ++ sp.name)),
      Ev.getPlaylistCall ytid] ++ tr2, ?_, ?_⟩
    · rw [htr2]
      show c2.trace ++ tr2 = _
      rw [gtrace]
      show (c.trace ++ [Ev.saveEv (c.state.set_youtube_playlist_id sp.id ytid pn)]) ++
        [Ev.getPlaylistCall ytid] ++ tr2 = _
      simp [List.append_assoc]
    · rw [List.countP_append, hcnt2]
      rfl

/-- C3 (corrected): for any playlist and source track list, if the adapter
accepts every insertion batch, destination reads never raise and creation
(if needed) returns a truthy id, then two consecutive migrate_playlist runs
with force_reprocess off both succeed, the second run stages no id beyond
the first run's staging, the second run submits zero insertion batches, and
the playlist ends in the completion set. -/
theorem c3_idempotent_when_adds_succeed (c : Ctx) (sp : SPlaylist) (tracks : List STrack)
    (il : Bool)
    (hA : ∀ k p v, c.api.addR k p v = none)
    (hG : ∀ k p, c.api.getR k p = none)
    (hCre : ∀ k t, ∃ i, c.api.createR k t = Except.ok i ∧ i ≠ ("")) :
    (migrate_playlist c sp tracks il false).1 = true ∧
    (migrate_playlist (migrate_playlist c sp tracks il false).2 sp tracks il false).1 = true ∧
    (migrate_playlist (migrate_playlist c sp tracks il false).2 sp tracks il false).2.staged =
      (migrate_playlist c sp tracks il false).2.staged ∧
    ((migrate_playlist (migrate_playlist c sp tracks il false).2 sp tracks il
        false).2.trace.drop (migrate_playlist c sp tracks il false).2.trace.length).countP
      is_add_call = 0 ∧
    (migrate_playlist (migrate_playlist c sp tracks il false).2 sp tracks il
      false).2.state.is_playlist_completed sp.id = true := by
  obtain ⟨m1, m2, ytid, hy, hmap, _, hready⟩ := migrate_run1 c sp tracks il hA hG hCre
  obtain ⟨q1, q2, q3, tr, htr, hcnt⟩ := migrate_run2 (migrate_playlist c sp tracks il false).2
    sp tracks il ytid hy hmap (by rw [m2]; exact hG) hready
  refine ⟨m1, q1, q2, ?_, q3⟩
  rw [htr, List.drop_left, hcnt]

/-- The all-accepting adapter for the C3 witness run. -/
def c3okApi : YTApi :=
  { searchR := fun _ _ => Except.ok [{ videoId := some ("v1") }],
    addR := fun _ _ _ => none,
    getR := fun _ _ => none,
    libR := fun _ => Except.ok [],
    createR := fun _ _ => Except.ok ("yC"),
    accR := fun _ => none }

/-- C3 witness: a fresh one-track playlist under the all-accepting adapter,
run twice; the hypotheses hold by computation and the conclusion follows by
the theorem. -/
theorem c3_idempotent_witness :
    (migrate_playlist (mkCtx c3okApi [] emptyMState) ⟨"p1", "P", "Me", some 1, true⟩
      [⟨"t1", "S", ["A"], "B"⟩] false false).1 = true ∧
    (migrate_playlist (migrate_playlist (mkCtx c3okApi [] emptyMState)
      ⟨"p1", "P", "Me", some 1, true⟩ [⟨"t1", "S", ["A"], "B"⟩] false false).2
      ⟨"p1", "P", "Me", some 1, true⟩ [⟨"t1", "S", ["A"], "B"⟩] false false).1 = true ∧
    (migrate_playlist (migrate_playlist (mkCtx c3okApi [] emptyMState)
      ⟨"p1", "P", "Me", some 1, true⟩ [⟨"t1", "S", ["A"], "B"⟩] false false).2
      ⟨"p1", "P", "Me", some 1, true⟩ [⟨"t1", "S", ["A"], "B"⟩] false false).2.staged =
      (migrate_playlist (mkCtx c3okApi [] emptyMState) ⟨"p1", "P", "Me", some 1, true⟩
        [⟨"t1", "S", ["A"], "B"⟩] false false).2.staged ∧
    ((migrate_playlist (migrate_playlist (mkCtx c3okApi [] emptyMState)
        ⟨"p1", "P", "Me", some 1, true⟩ [⟨"t1", "S", ["A"], "B"⟩] false false).2
        ⟨"p1", "P", "Me", some 1, true⟩ [⟨"t1", "S", ["A"], "B"⟩] false
        false).2.trace.drop (migrate_playlist (mkCtx c3okApi [] emptyMState)
        ⟨"p1", "P", "Me", some 1, true⟩
        [⟨"t1", "S", ["A"], "B"⟩] false false).2.trace.length).countP is_add_call = 0 ∧
    (migrate_playlist (migrate_playlist (mkCtx c3okApi [] emptyMState)
      ⟨"p1", "P", "Me", some 1, true⟩ [⟨"t1", "S", ["A"], "B"⟩] false false).2
      ⟨"p1", "P", "Me", some 1, true⟩ [⟨"t1", "S", ["A"], "B"⟩] false
      false).2.state.is_playlist_completed ("p1") = true :=
  c3_idempotent_when_adds_succeed (mkCtx c3okApi [] emptyMState)
    ⟨"p1", "P", "Me", some 1, true⟩ [⟨"t1", "S", ["A"], "B"⟩] false
    (fun _ _ _ => rfl) (fun _ _ => rfl) (fun _ _ => ⟨("yC"), rfl, by decide⟩)
